import Mathlib

/-!
Cgroup resource-control handlers (containers/common `pkg/cgroups`)

A shallow embedding of the per-controller handlers and the systemd backend
of `vendor/github.com/containers/common/pkg/cgroups`, with
`ValidatePodStatsOptions` of `pkg/domain/entities` and `ToURLValues` of
`pkg/domain/utils`, and theorems about them.

Pseudo-file I/O is modelled by a `World`: a deterministic oracle that answers
every file operation from the history of the operations performed so far.
Each handler returns the trace of the operations it attempted, in order,
together with the Go `error` it returns (`none` for `nil`).

Machine integers are `Nat` (unsigned) and `Int` (signed); where the source
relies on unsigned wrap-around the reduction modulo `2 ^ 64` is explicit.
-/

namespace Cgroups

deriving instance DecidableEq for Except

/-! ## Go runtime: errors -/

/-- Errno value `ENOENT`. -/
def ENOENT : Nat := 2

/-- Errno value `EINVAL` (`unix.EINVAL`). -/
def EINVAL : Nat := 22

/-- Go `error` values as far as the handlers inspect them: a system-call
errno, a plain message (`fmt.Errorf`, `errors.New`), a message wrapping a
cause with `fmt.Errorf` and `%w` (`wrap`), or a message wrapping a cause with
`errors.Wrapf` of `github.com/pkg/errors` (`wrapf`). -/
inductive Error where
  | errno (code : Nat)
  | text (msg : String)
  | wrap (msg : String) (cause : Error)
  | wrapf (msg : String) (cause : Error)
  deriving DecidableEq, Repr

/-- Go `errors.Is(err, target)` for an errno target: walks the wrap chain. -/
def Error.Is : Error → Nat → Bool
  | .errno c, target => c == target
  | .text _, _ => false
  | .wrap _ cause, target => cause.Is target
  | .wrapf _ cause, target => cause.Is target

/-- The function `errors.Cause` of `github.com/pkg/errors`: strips the
wrappers made by that package, and no others. -/
def errors_Cause : Error → Error
  | .wrapf _ cause => errors_Cause cause
  | err => err

/-- Go `os.IsNotExist(err)`; it inspects the error itself and does not follow
`%w` wrappers. -/
def os_IsNotExist : Error → Bool
  | .errno c => c == ENOENT
  | _ => false

/-! ## Go runtime: `strconv` and `strings` -/

/-- Go `strconv.FormatUint(n, 10)`. -/
def FormatUint (n : Nat) : String := Nat.repr n

/-- Go `strconv.FormatInt(i, 10)`. -/
def FormatInt (i : Int) : String :=
  if i < 0 then "-" ++ Nat.repr i.natAbs else Nat.repr i.toNat

/-- Value of a decimal digit character, if it is one. -/
def digitValue (c : Char) : Option Nat :=
  if 48 ≤ c.toNat ∧ c.toNat ≤ 57 then some (c.toNat - 48) else none

/-- Accumulates decimal digits left to right; `none` on a non-digit. -/
def parseDigits : List Char → Nat → Option Nat
  | [], acc => some acc
  | c :: cs, acc =>
    match digitValue c with
    | none => none
    | some d => parseDigits cs (acc * 10 + d)

/-- Go `strconv.ParseUint(s, 10, bitSize)` with `bitSize` 64 (or 0 on a 64-bit
platform): a syntax error on the empty string or a non-digit, a range error
when the value does not fit 64 bits. -/
def ParseUint (s : String) : Except Error Nat :=
  match s.data with
  | [] => .error (.text "strconv.ParseUint: invalid syntax")
  | cs =>
    match parseDigits cs 0 with
    | none => .error (.text "strconv.ParseUint: invalid syntax")
    | some n =>
      if n < 2 ^ 64 then .ok n
      else .error (.text "strconv.ParseUint: value out of range")

/-- Go `unicode.IsSpace`. -/
def isSpace (c : Char) : Bool :=
  let n := c.toNat
  (9 ≤ n && n ≤ 13) || n == 32 || n == 133 || n == 160 || n == 5760 ||
  (8192 ≤ n && n ≤ 8202) || n == 8232 || n == 8233 || n == 8239 ||
  n == 8287 || n == 12288

/-- Go `strings.TrimSpace`. -/
def TrimSpace (s : String) : String :=
  ⟨((s.data.dropWhile isSpace).reverse.dropWhile isSpace).reverse⟩

/-- Splits a character list at every occurrence of `sep`. -/
def splitChars (sep : Char) : List Char → List (List Char)
  | [] => [[]]
  | c :: cs =>
    match splitChars sep cs with
    | [] => [[]]
    | piece :: rest =>
      if c = sep then [] :: piece :: rest else (c :: piece) :: rest

/-- Go `strings.Split(s, sep)` for a one-character separator, the only kind
the handlers use (":" and "="). -/
def Split (s : String) (sep : Char) : List String :=
  (splitChars sep s.data).map String.mk

/-- Go `strings.Fields` on a character list; `cur` holds the field being
read, in reverse. -/
def fieldsChars : List Char → List Char → List String
  | [], cur => if cur = [] then [] else [String.mk cur.reverse]
  | c :: cs, cur =>
    if isSpace c then
      if cur = [] then fieldsChars cs [] else String.mk cur.reverse :: fieldsChars cs []
    else fieldsChars cs (c :: cur)

/-- Go `strings.Fields`. -/
def Fields (s : String) : List String := fieldsChars s.data []

/-- Go `fmt` verb `%q` on a string that needs no escaping (digits, sign,
colon and blank, as produced by `WeightString`). -/
def Quote (s : String) : String := "\"" ++ s ++ "\""

/-! ## Data model -/

/-- The per-controller hierarchies of cgroup v1 (`CPU`, `CPUset`, `Memory`,
`Blkio`, `Pids` in the package). -/
inductive Controller where
  | CPU | CPUset | Memory | Blkio | Pids
  deriving DecidableEq, Repr

/-- The directory of a cgroup: `filepath.Join(cgroupRoot, path)` on the
unified hierarchy, `filepath.Join(cgroupRoot, controller, path)` on the
legacy one. -/
inductive CgPath where
  | unified (path : String)
  | legacy (controller : Controller) (path : String)
  deriving DecidableEq, Repr

/-- The `config` field of `CgroupControl`. -/
structure CgroupConfig where
  Path : String
  deriving DecidableEq, Repr

/-- The cgroup identity `CgroupControl`, as far as the handlers read it. -/
structure CgroupControl where
  cgroup2 : Bool
  config : CgroupConfig
  deriving DecidableEq, Repr

/-- The runc type `configs.WeightDevice` (`Major`, `Minor` are `int64`,
the weights `uint16`). -/
structure WeightDevice where
  Major : Int
  Minor : Int
  Weight : Nat
  LeafWeight : Nat
  deriving DecidableEq, Repr

/-- The runc type `configs.ThrottleDevice` (`Rate` is `uint64`). -/
structure ThrottleDevice where
  Major : Int
  Minor : Int
  Rate : Nat
  deriving DecidableEq, Repr

/-- A non-nil `*uint64`: the address and the value stored there. -/
structure UintPtr where
  addr : Nat
  val : Nat
  deriving DecidableEq, Repr

/-- The runc type `configs.Resources`, the fields the handlers read.
Signed fields are `int64`, unsigned ones `uint64`, the block-I/O weights
`uint16`. -/
structure Resources where
  Memory : Int
  MemoryReservation : Int
  MemorySwap : Int
  MemorySwappiness : Option UintPtr
  OomKillDisable : Bool
  CpuShares : Nat
  CpuQuota : Int
  CpuPeriod : Nat
  CpuRtRuntime : Int
  CpuRtPeriod : Nat
  CpuWeight : Nat
  CpusetCpus : String
  CpusetMems : String
  PidsLimit : Int
  BlkioWeight : Nat
  BlkioLeafWeight : Nat
  BlkioWeightDevice : List WeightDevice
  BlkioThrottleReadBpsDevice : List ThrottleDevice
  BlkioThrottleWriteBpsDevice : List ThrottleDevice
  BlkioThrottleReadIOPSDevice : List ThrottleDevice
  BlkioThrottleWriteIOPSDevice : List ThrottleDevice
  deriving DecidableEq, Repr

/-- The all-zero resource specification (Go zero value). -/
def Resources.zero : Resources :=
  ⟨0, 0, 0, none, false, 0, 0, 0, 0, 0, 0, "", "", 0, 0, 0, [], [], [], [], []⟩

/-- The runc method `WeightDevice.WeightString`: `"%d:%d %d"`. -/
def WeightDevice.WeightString (wd : WeightDevice) : String :=
  FormatInt wd.Major ++ ":" ++ FormatInt wd.Minor ++ " " ++ FormatUint wd.Weight

/-- The runc method `ThrottleDevice.StringName`: `"%d:%d %s=%d"`. -/
def ThrottleDevice.StringName (td : ThrottleDevice) (name : String) : String :=
  FormatInt td.Major ++ ":" ++ FormatInt td.Minor ++ " " ++ name ++ "=" ++ FormatUint td.Rate

/-! ## Pseudo-file I/O -/

/-- One attempted file operation. -/
inductive Event where
  | write (dir : CgPath) (name : String) (data : String)
  | read (dir : CgPath) (name : String)
  | openFile (dir : CgPath) (name : String)
  deriving DecidableEq, Repr

/-- The operations attempted so far, oldest first. -/
abbrev Trace := List Event

/-- The file system and the helpers of the package that are not among the
sources at hand, as oracles over the history of operations.
`write` answers `WriteFile` and `File.WriteString`, `read` answers `ReadFile`,
`readUint` answers `fscommon.GetCgroupParamUint`, `openFile` answers
`OpenFile` and `os.Open` (`none` is success); `cleanString`, `readAcct` and
`readAcctList` are the package helpers of those names. -/
structure World where
  write : Trace → CgPath → String → String → Option Error
  read : Trace → CgPath → String → Except Error String
  readUint : Trace → CgPath → String → Except Error Nat
  openFile : Trace → CgPath → String → Option Error
  bfqDeviceWeightSupported : Trace → Bool → Bool
  GetBlkioFiles : CgPath → String × String
  SetBlkioThrottle : Trace → Resources → CgPath → Trace × Option Error
  readCgroup2MapFile : CgroupControl → String → Except Error (List (String × List String))
  scanFile : CgPath → String → Except Error (List String × Option Error)
  pathString : CgPath → String → String
  cleanString : String → String
  readAcct : CgroupControl → String → Except Error Nat
  readAcctList : CgroupControl → String → Except Error (List Nat)

/-- A handler run: the operations attempted and the returned `error`. -/
abbrev Outcome := Trace × Option Error

/-- The package helper `WriteFile(dir, name, data)`: one write attempt. -/
def WriteFile (w : World) (tr : Trace) (dir : CgPath) (name data : String) : Outcome :=
  (tr ++ [Event.write dir name data], w.write tr dir name data)

/-- Go `if err := step; err != nil { return err }` followed by `k`. -/
def andThen (r : Outcome) (k : Trace → Outcome) : Outcome :=
  match r with
  | (tr, some e) => (tr, some e)
  | (tr, none) => k tr

/-- Go `return nil`. -/
def done (tr : Trace) : Outcome := (tr, none)

/-- Go `for _, d := range ds { if err := WriteFile(dir, name, d); err != nil
{ return err } }`. -/
def writeEach (w : World) (dir : CgPath) (name : String) : List String → Trace → Outcome
  | [], tr => (tr, none)
  | d :: ds, tr => andThen (WriteFile w tr dir name d) (writeEach w dir name ds)

/-! ## Block-I/O handler (`blkio_linux.go`) -/

/-- The rescaling `1 + (uint64(res.BlkioWeight)-10)*9999/990` of
`linuxBlkioHandler.Apply`, in `uint64` arithmetic (`weight` is a `uint16`). -/
def blkioWeightRescale (weight : Nat) : Nat :=
  (1 + ((weight + 2 ^ 64 - 10) % 2 ^ 64 * 9999) % 2 ^ 64 / 990) % 2 ^ 64

/-- The loop over `res.BlkioWeightDevice` of the unified branch: each device
weight goes to the open `io.bfq.weight` file, a failure is wrapped. -/
def writeBfqDeviceWeights (w : World) (dir : CgPath) : List WeightDevice → Trace → Outcome
  | [], tr => (tr, none)
  | wd :: wds, tr =>
    match WriteFile w tr dir "io.bfq.weight" (wd.WeightString ++ "\n") with
    | (tr1, some err) =>
      (tr1, some (.wrap ("setting device weight " ++ Quote wd.WeightString) err))
    | (tr1, none) => writeBfqDeviceWeights w dir wds tr1

/-- Unified branch of `linuxBlkioHandler.Apply`, the four `io.max` loops. -/
def blkioUnifiedThrottle (w : World) (path : CgPath) (res : Resources) (tr : Trace) : Outcome :=
  andThen (writeEach w path "io.max"
    (res.BlkioThrottleReadBpsDevice.map fun td => td.StringName "rbps") tr) fun tr1 =>
  andThen (writeEach w path "io.max"
    (res.BlkioThrottleWriteBpsDevice.map fun td => td.StringName "wbps") tr1) fun tr2 =>
  andThen (writeEach w path "io.max"
    (res.BlkioThrottleReadIOPSDevice.map fun td => td.StringName "riops") tr2) fun tr3 =>
  andThen (writeEach w path "io.max"
    (res.BlkioThrottleWriteIOPSDevice.map fun td => td.StringName "wiops") tr3) done

/-- Unified branch of `linuxBlkioHandler.Apply` from `if res.BlkioWeight != 0`
on; `bfq` tells whether `io.bfq.weight` was opened (`bfq != nil`). -/
def blkioUnifiedWeight (w : World) (path : CgPath) (res : Resources) (bfq : Bool)
    (tr : Trace) : Outcome :=
  andThen
    (if res.BlkioWeight ≠ 0 then
      if bfq then WriteFile w tr path "io.bfq.weight" (FormatUint res.BlkioWeight)
      else
        let v := if res.BlkioWeight ≠ 0 then blkioWeightRescale res.BlkioWeight else 0
        WriteFile w tr path "io.weight" (FormatUint v)
    else (tr, none)) fun tr1 =>
  andThen
    (if w.bfqDeviceWeightSupported tr1 bfq then
      writeBfqDeviceWeights w path res.BlkioWeightDevice tr1
    else (tr1, none)) fun tr2 =>
  blkioUnifiedThrottle w path res tr2

/-- Legacy branch of `linuxBlkioHandler.Apply`, the loop over
`res.BlkioWeightDevice`. -/
def writeLegacyDeviceWeights (w : World) (path : CgPath) (weightDeviceFile : String) :
    List WeightDevice → Trace → Outcome
  | [], tr => (tr, none)
  | wd :: wds, tr =>
    andThen
      (if wd.Weight ≠ 0 then
        WriteFile w tr path weightDeviceFile
          (FormatInt wd.Major ++ ":" ++ FormatInt wd.Minor ++ " " ++ FormatUint wd.Weight)
      else (tr, none)) fun tr1 =>
    andThen
      (if wd.LeafWeight ≠ 0 then
        WriteFile w tr1 path "blkio.leaf_weight_device"
          (FormatInt wd.Major ++ ":" ++ FormatInt wd.Minor ++ " " ++ FormatUint wd.LeafWeight)
      else (tr1, none)) fun tr2 =>
    writeLegacyDeviceWeights w path weightDeviceFile wds tr2

/-- The method `linuxBlkioHandler.Apply`. -/
def linuxBlkioHandler.Apply (w : World) (ctr : CgroupControl) (res : Resources) : Outcome :=
  if ctr.cgroup2 then
    let path := CgPath.unified ctr.config.Path
    if res.BlkioWeight ≠ 0 ∨ res.BlkioWeightDevice.length > 0 then
      match w.openFile [] path "io.bfq.weight" with
      | none => blkioUnifiedWeight w path res true [Event.openFile path "io.bfq.weight"]
      | some err =>
        if os_IsNotExist err then
          blkioUnifiedWeight w path res false [Event.openFile path "io.bfq.weight"]
        else ([Event.openFile path "io.bfq.weight"], some err)
    else blkioUnifiedWeight w path res false []
  else
    let path := CgPath.legacy Controller.Blkio ctr.config.Path
    let weightFile := (w.GetBlkioFiles path).1
    let weightDeviceFile := (w.GetBlkioFiles path).2
    andThen
      (if res.BlkioWeight ≠ 0 then
        WriteFile w [] path weightFile (FormatUint res.BlkioWeight)
      else ([], none)) fun tr1 =>
    andThen
      (if res.BlkioLeafWeight ≠ 0 then
        WriteFile w tr1 path "blkio.leaf_weight" (FormatUint res.BlkioLeafWeight)
      else (tr1, none)) fun tr2 =>
    andThen (writeLegacyDeviceWeights w path weightDeviceFile res.BlkioWeightDevice tr2) fun tr3 =>
    andThen (w.SetBlkioThrottle tr3 res path) done

/-- The runc type `cgroups.BlkioStatEntry`. -/
structure BlkioStatEntry where
  Major : Nat
  Minor : Nat
  Op : String
  Value : Nat
  deriving DecidableEq, Repr

/-- Unified branch of `linuxBlkioHandler.Stat`, the loop over the value
tokens of one device. -/
def statItems (major minor : Nat) :
    List String → List BlkioStatEntry → Except Error (List BlkioStatEntry)
  | [], acc => .ok acc
  | item :: items, acc =>
    match Split item '=' with
    | [d0, d1] =>
      let op := if d0 = "rbytes" then "read" else if d0 = "wbytes" then "write" else d0
      match ParseUint d1 with
      | .error err => .error err
      | .ok value => statItems major minor items (acc ++ [⟨major, minor, op, value⟩])
    | _ => statItems major minor items acc

/-- Unified branch of `linuxBlkioHandler.Stat`, the loop over the `io.stat`
map; the list gives the entries in the order the iteration visits them. -/
def statDevices :
    List (String × List String) → List BlkioStatEntry → Except Error (List BlkioStatEntry)
  | [], acc => .ok acc
  | (k, v) :: rest, acc =>
    match Split k ':' with
    | [d0, d1] =>
      match ParseUint d0 with
      | .error err => .error err
      | .ok minor =>
        match ParseUint d1 with
        | .error err => .error err
        | .ok major =>
          match statItems major minor v acc with
          | .error err => .error err
          | .ok acc1 => statDevices rest acc1
    | _ => statDevices rest acc

/-- Legacy branch of `linuxBlkioHandler.Stat`, the loop over the scanned
lines of `blkio.throttle.io_service_bytes_recursive`. -/
def statLines : List String → List BlkioStatEntry → Except Error (List BlkioStatEntry)
  | [], acc => .ok acc
  | line :: lines, acc =>
    match Fields line with
    | p0 :: p1 :: p2 :: _ =>
      match Split p0 ':' with
      | [d0, d1] =>
        match ParseUint d0 with
        | .error err => .error err
        | .ok minor =>
          match ParseUint d1 with
          | .error err => .error err
          | .ok major =>
            match ParseUint p2 with
            | .error err => .error err
            | .ok value => statLines lines (acc ++ [⟨major, minor, p1, value⟩])
      | _ => statLines lines acc
    | _ => statLines lines acc

/-- The runc type `cgroups.CpuUsage`, the fields the handlers fill. -/
structure CpuUsage where
  TotalUsage : Nat
  UsageInKernelmode : Nat
  PercpuUsage : List Nat
  deriving DecidableEq, Repr

/-- The runc type `cgroups.CpuStats`. -/
structure CpuStats where
  CpuUsage : CpuUsage
  deriving DecidableEq, Repr

/-- The runc type `cgroups.MemoryData`, the fields the handlers fill. -/
structure MemoryData where
  Usage : Nat
  Limit : Nat
  deriving DecidableEq, Repr

/-- The runc type `cgroups.MemoryStats`. -/
structure MemoryStats where
  Usage : MemoryData
  deriving DecidableEq, Repr

/-- The runc type `cgroups.BlkioStats`. -/
structure BlkioStats where
  IoServiceBytesRecursive : List BlkioStatEntry
  deriving DecidableEq, Repr

/-- The runc type `cgroups.PidsStats`. -/
structure PidsStats where
  Current : Nat
  deriving DecidableEq, Repr

/-- The metrics record `cgroups.Stats`. -/
structure Stats where
  CpuStats : CpuStats
  MemoryStats : MemoryStats
  BlkioStats : BlkioStats
  PidsStats : PidsStats
  deriving DecidableEq, Repr

/-- The zero metrics record. -/
def Stats.zero : Stats := ⟨⟨⟨0, 0, []⟩⟩, ⟨⟨0, 0⟩⟩, ⟨[]⟩, ⟨0⟩⟩

/-- The method `linuxBlkioHandler.Stat`: the metrics record after the call
and the returned `error`. -/
def linuxBlkioHandler.Stat (w : World) (ctr : CgroupControl) (m : Stats) : Stats × Option Error :=
  if ctr.cgroup2 then
    match w.readCgroup2MapFile ctr "io.stat" with
    | .error err => (m, some err)
    | .ok values =>
      match statDevices values [] with
      | .error err => (m, some err)
      | .ok ioServiceBytesRecursive =>
        ({ m with BlkioStats := ⟨ioServiceBytesRecursive⟩ }, none)
  else
    let BlkioRoot := CgPath.legacy Controller.Blkio ctr.config.Path
    let name := "blkio.throttle.io_service_bytes_recursive"
    match w.scanFile BlkioRoot name with
    | .error err =>
      if os_IsNotExist err then (m, none)
      else (m, some (.wrapf ("open " ++ w.pathString BlkioRoot name) err))
    | .ok (lines, scanErr) =>
      match statLines lines [] with
      | .error err => (m, some err)
      | .ok ioServiceBytesRecursive =>
        match scanErr with
        | some err => (m, some (.wrapf ("parse " ++ w.pathString BlkioRoot name) err))
        | none => ({ m with BlkioStats := ⟨ioServiceBytesRecursive⟩ }, none)

/-! ## PIDs handler (`pids_linux.go`) -/

/-- The method `linuxPidHandler.Apply`. -/
def linuxPidHandler.Apply (w : World) (ctr : CgroupControl) (res : Resources) : Outcome :=
  if ctr.cgroup2 then
    let path := CgPath.unified ctr.config.Path
    let val := FormatInt res.PidsLimit
    if val ≠ "" then andThen (WriteFile w [] path "pids.max" val) done
    else ([], none)
  else
    let path := CgPath.legacy Controller.Pids ctr.config.Path
    if res.PidsLimit ≠ 0 then
      let limit := if res.PidsLimit > 0 then FormatInt res.PidsLimit else "max"
      andThen (WriteFile w [] path "pids.max" limit) done
    else ([], none)

/-! ## Memory handler (`memory_linux.go`) -/

/-- Modelled from the spec: the runc function
`cgroups.ConvertMemorySwapToCgroupV2Value`, which `linuxMemHandler.Apply`
calls and which is not among the sources at hand. The spec gives the
swap-only allowance `memorySwap - memory` for finite positive limits and the
unlimited sentinel -1 for `memorySwap = -1` and for `memory = -1` with
`memorySwap = 0`; an unset swap limit (0) is passed on as it is, and the
remaining combinations (a swap limit without a memory limit, a negative
memory limit, a swap limit below the memory limit) are rejected. -/
def ConvertMemorySwapToCgroupV2Value (memorySwap memory : Int) : Except Error Int :=
  if memory = -1 ∧ memorySwap = 0 then .ok (-1)
  else if memorySwap = -1 ∨ memorySwap = 0 then .ok memorySwap
  else if memory = 0 ∨ memory = -1 then
    .error (.text "unable to set swap limit without memory limit")
  else if memory < 0 then .error (.text ("invalid memory value: " ++ FormatInt memory))
  else if memorySwap < memory then
    .error (.text "memory+swap limit should be >= memory limit")
  else .ok (memorySwap - memory)

/-- Legacy branch of `linuxMemHandler.Apply` from `if res.MemoryReservation
!= 0` on: reservation, OOM control, swappiness. -/
def memLegacyRest (w : World) (path : CgPath) (res : Resources) (tr : Trace) : Outcome :=
  andThen
    (if res.MemoryReservation ≠ 0 then
      WriteFile w tr path "memory.soft_limit_in_bytes" (FormatInt res.MemoryReservation)
    else (tr, none)) fun tr1 =>
  andThen
    (if res.OomKillDisable then WriteFile w tr1 path "memory.oom_control" "1"
    else (tr1, none)) fun tr2 =>
  match res.MemorySwappiness with
  | none => (tr2, none)
  | some p =>
    if p.val = 2 ^ 64 - 1 then (tr2, none)
    else if p.val ≤ 100 then
      andThen (WriteFile w tr2 path "memory.swappiness" (FormatUint p.val)) done
    else
      (tr2, some (.text ("invalid memory swappiness value: " ++ FormatUint p.addr ++
        " (valid range is 0-100)")))

/-- The method `linuxMemHandler.Apply`. -/
def linuxMemHandler.Apply (w : World) (ctr : CgroupControl) (res : Resources) : Outcome :=
  if ctr.cgroup2 then
    let path := CgPath.unified ctr.config.Path
    match ConvertMemorySwapToCgroupV2Value res.MemorySwap res.Memory with
    | .error err => ([], some err)
    | .ok swap =>
      let swapStr := FormatInt swap
      let swapStr := if swapStr = "" ∧ swap = 0 ∧ res.MemorySwap > 0 then "0" else swapStr
      andThen
        (if swapStr ≠ "" then WriteFile w [] path "memory.swap.max" swapStr
        else ([], none)) fun tr1 =>
      andThen
        (if FormatInt res.Memory ≠ "" then
          WriteFile w tr1 path "memory.max" (FormatInt res.Memory)
        else (tr1, none)) fun tr2 =>
      andThen
        (if FormatInt res.MemoryReservation ≠ "" then
          WriteFile w tr2 path "memory.low" (FormatInt res.MemoryReservation)
        else (tr2, none)) done
  else
    let path := CgPath.legacy Controller.Memory ctr.config.Path
    let probe := decide (res.Memory = -1 ∧ res.MemorySwap = 0)
    let tr0 : Trace := if probe then [Event.openFile path "memory.memsw.limit_in_bytes"] else []
    let MemorySwap : Int :=
      if probe && (w.openFile [] path "memory.memsw.limit_in_bytes").isNone then -1
      else res.MemorySwap
    if res.Memory ≠ 0 ∧ MemorySwap ≠ 0 then
      let tr1 := tr0 ++ [Event.read path "memory.limit_in_bytes"]
      match w.read tr0 path "memory.limit_in_bytes" with
      | .error err => (tr1, some err)
      | .ok limitString =>
        match ParseUint (TrimSpace limitString) with
        | .error err => (tr1, some err)
        | .ok curLimit =>
          if MemorySwap = -1 ∨ curLimit < (MemorySwap % 2 ^ 64).toNat then
            andThen (WriteFile w tr1 path "memory.memsw.limit_in_bytes"
              (FormatInt MemorySwap)) fun tr2 =>
            andThen (WriteFile w tr2 path "memory.limit_in_bytes"
              (FormatInt res.Memory)) done
          else memLegacyRest w path res tr1
    else memLegacyRest w path res tr0

/-! ## CPU handler (`cpu_linux.go`) -/

/-- Legacy branch of `linuxCpuHandler.Apply`, the real-time settings. -/
def cpuLegacyRt (w : World) (path : CgPath) (res : Resources) (tr : Trace) : Outcome :=
  andThen
    (if res.CpuRtPeriod ≠ 0 then
      WriteFile w tr path "cpu.rt_period_us" (FormatUint res.CpuRtPeriod)
    else (tr, none)) fun tr1 =>
  andThen
    (if res.CpuRtRuntime ≠ 0 then
      WriteFile w tr1 path "cpu.rt_runtime_us" (FormatInt res.CpuRtRuntime)
    else (tr1, none)) done

/-- Legacy branch of `linuxCpuHandler.Apply` from `if res.CpuQuota != 0` on;
`period` is the local variable of that name: the period still to be written,
or the empty string. -/
def cpuLegacyQuota (w : World) (path : CgPath) (res : Resources) (period : String)
    (tr : Trace) : Outcome :=
  if res.CpuQuota ≠ 0 then
    andThen (WriteFile w tr path "cpu.cfs_quota_us" (FormatInt res.CpuQuota)) fun tr1 =>
    if period ≠ "" then
      andThen (WriteFile w tr1 path "cpu.cfs_period_us" period) (cpuLegacyRt w path res)
    else cpuLegacyRt w path res tr1
  else cpuLegacyRt w path res tr

/-- Legacy branch of `linuxCpuHandler.Apply` from `var period string` on. -/
def cpuLegacyPeriod (w : World) (path : CgPath) (res : Resources) (tr : Trace) : Outcome :=
  if res.CpuPeriod ≠ 0 then
    let period := FormatUint res.CpuPeriod
    match WriteFile w tr path "cpu.cfs_period_us" period with
    | (tr1, some err) =>
      if !err.Is EINVAL || res.CpuQuota = 0 then (tr1, some err)
      else cpuLegacyQuota w path res period tr1
    | (tr1, none) => cpuLegacyQuota w path res "" tr1
  else cpuLegacyQuota w path res "" tr

/-- Legacy branch of `linuxCpuHandler.Apply`, the `cpu.shares` block: write,
read back, compare. -/
def cpuLegacyShares (w : World) (path : CgPath) (res : Resources) : Outcome :=
  if res.CpuShares ≠ 0 then
    let shares := res.CpuShares
    andThen (WriteFile w [] path "cpu.shares" (FormatUint shares)) fun tr1 =>
    let tr2 := tr1 ++ [Event.read path "cpu.shares"]
    match w.readUint tr1 path "cpu.shares" with
    | .error err => (tr2, some err)
    | .ok sharesRead =>
      if shares > sharesRead then
        (tr2, some (.text ("the maximum allowed cpu-shares is " ++ FormatUint sharesRead)))
      else if shares < sharesRead then
        (tr2, some (.text ("the minimum allowed cpu-shares is " ++ FormatUint sharesRead)))
      else (tr2, none)
  else ([], none)

/-- The method `linuxCpuHandler.Apply`. -/
def linuxCpuHandler.Apply (w : World) (ctr : CgroupControl) (res : Resources) : Outcome :=
  if ctr.cgroup2 then
    let path := CgPath.unified ctr.config.Path
    andThen
      (if res.CpuWeight ≠ 0 then WriteFile w [] path "cpu.weight" (FormatUint res.CpuWeight)
      else ([], none)) fun tr1 =>
    if res.CpuQuota ≠ 0 ∨ res.CpuPeriod ≠ 0 then
      let str := if res.CpuQuota > 0 then FormatInt res.CpuQuota else "max"
      let period := if res.CpuPeriod = 0 then 100000 else res.CpuPeriod
      andThen (WriteFile w tr1 path "cpu.max" (str ++ " " ++ FormatUint period)) done
    else (tr1, none)
  else
    let path := CgPath.legacy Controller.CPU ctr.config.Path
    andThen (cpuLegacyShares w path res) (cpuLegacyPeriod w path res)

/-- Unified branch of `linuxCpuHandler.Stat`, the block
`if val, found := values["usage_usec"]; found`. The outer `none` is the
run-time panic of `val[0]` on an empty value list. -/
def cpuStatUsage (w : World) (values : List (String × List String)) (cpu : CpuStats) :
    Option (Except Error CpuStats) :=
  match values.lookup "usage_usec" with
  | none => some (.ok cpu)
  | some [] => none
  | some (v0 :: _) =>
    match ParseUint (w.cleanString v0) with
    | .error err => some (.error err)
    | .ok total =>
      some (.ok ⟨⟨total, cpu.CpuUsage.UsageInKernelmode * 1000 % 2 ^ 64,
        cpu.CpuUsage.PercpuUsage⟩⟩)

/-- Unified branch of `linuxCpuHandler.Stat`, the block
`if val, found := values["system_usec"]; found`. -/
def cpuStatSystem (w : World) (values : List (String × List String)) (cpu : CpuStats) :
    Option (Except Error CpuStats) :=
  match values.lookup "system_usec" with
  | none => some (.ok cpu)
  | some [] => none
  | some (v0 :: _) =>
    match ParseUint (w.cleanString v0) with
    | .error err => some (.error err)
    | .ok kernel =>
      some (.ok ⟨⟨cpu.CpuUsage.TotalUsage * 1000 % 2 ^ 64, kernel,
        cpu.CpuUsage.PercpuUsage⟩⟩)

/-- Legacy branch of `linuxCpuHandler.Stat` from the read of
`cpuacct.usage_percpu` on. -/
def cpuStatLegacyPercpu (w : World) (ctr : CgroupControl) (m : Stats) (total kernel : Nat) :
    Option (Stats × Option Error) :=
  match w.readAcctList ctr "cpuacct.usage_percpu" with
  | .error err =>
    if !os_IsNotExist (errors_Cause err) then some (m, some err)
    else some ({ m with CpuStats := ⟨⟨total, kernel, []⟩⟩ }, none)
  | .ok percpu => some ({ m with CpuStats := ⟨⟨total, kernel, percpu⟩⟩ }, none)

/-- Legacy branch of `linuxCpuHandler.Stat` from the read of
`cpuacct.usage_sys` on. -/
def cpuStatLegacySys (w : World) (ctr : CgroupControl) (m : Stats) (total : Nat) :
    Option (Stats × Option Error) :=
  match w.readAcct ctr "cpuacct.usage_sys" with
  | .error err =>
    if !os_IsNotExist (errors_Cause err) then some (m, some err)
    else cpuStatLegacyPercpu w ctr m total 0
  | .ok kernel => cpuStatLegacyPercpu w ctr m total kernel

/-- The method `linuxCpuHandler.Stat`: the metrics record after the call and
the returned `error`; `none` when the call panics. The list given by
`readCgroup2MapFile` stands for the Go map, its keys are distinct. -/
def linuxCpuHandler.Stat (w : World) (ctr : CgroupControl) (m : Stats) :
    Option (Stats × Option Error) :=
  let cpu : CpuStats := ⟨⟨0, 0, []⟩⟩
  if ctr.cgroup2 then
    match w.readCgroup2MapFile ctr "cpu.stat" with
    | .error err => some (m, some err)
    | .ok values =>
      match cpuStatUsage w values cpu with
      | none => none
      | some (.error err) => some (m, some err)
      | some (.ok cpu1) =>
        match cpuStatSystem w values cpu1 with
        | none => none
        | some (.error err) => some (m, some err)
        | some (.ok cpu2) => some ({ m with CpuStats := cpu2 }, none)
  else
    match w.readAcct ctr "cpuacct.usage" with
    | .error err =>
      if !os_IsNotExist (errors_Cause err) then some (m, some err)
      else cpuStatLegacySys w ctr m 0
    | .ok total => cpuStatLegacySys w ctr m total

/-! ## Systemd delegation (`systemd.go`) -/

/-- Go `filepath.Split` on Linux: the path up to and including the last
slash, and the rest. -/
def filepath.Split (path : String) : String × String :=
  (⟨(path.data.reverse.dropWhile fun ch => ch ≠ '/').reverse⟩,
   ⟨(path.data.reverse.takeWhile fun ch => ch ≠ '/').reverse⟩)

/-- Go `strings.TrimSuffix`. -/
def TrimSuffix (s suffix : String) : String :=
  if suffix.data.isSuffixOf s.data then ⟨s.data.take (s.data.length - suffix.data.length)⟩
  else s

/-- Go `[]byte(s)`: the UTF-8 encoding of a string. -/
def bytesOf (s : String) : List Nat :=
  (s.data.flatMap String.utf8EncodeChar).map UInt8.toNat

/-- Go `m[k] = v` on a map kept as a list of entries with distinct keys. -/
def mapSet {α : Type} (m : List (String × α)) (k : String) (v : α) : List (String × α) :=
  if m.any fun kv => kv.1 = k then m.map fun kv => if kv.1 = k then (k, v) else kv
  else m ++ [(k, v)]

/-- The values `dbus.MakeVariant` wraps in `systemdCreate`. -/
inductive Variant where
  | bool (b : Bool)
  | uint64 (n : Nat)
  | int64 (i : Int)
  | str (s : String)
  | strs (l : List String)
  | bytes (b : List Nat)
  deriving DecidableEq, Repr

/-- The go-systemd type `dbus.Property`. -/
structure Property where
  Name : String
  Value : Variant
  deriving DecidableEq, Repr

/-- The go-systemd function `dbus.PropDescription`. -/
def PropDescription (desc : String) : Property := ⟨"Description", .str desc⟩

/-- The go-systemd function `dbus.PropWants`. -/
def PropWants (units : List String) : Property := ⟨"Wants", .strs units⟩

/-- The function `resourcesToProps`; it returns `uMap`, `sMap`, `bMap`,
`iMap`, each map as the list of its entries. -/
def resourcesToProps (res : Resources) :
    List (String × Nat) × List (String × String) × List (String × List Nat) ×
      List (String × Int) :=
  let bMap : List (String × List Nat) := []
  let sMap : List (String × String) := []
  let iMap : List (String × Int) := []
  let uMap : List (String × Nat) := []
  let uMap := if res.CpuPeriod ≠ 0 then mapSet uMap "CPUQuotaPeriodUSec" res.CpuPeriod else uMap
  let uMap :=
    if res.CpuQuota ≠ 0 then mapSet uMap "CPUQuotaPerSecUSec" (res.CpuQuota % 2 ^ 64).toNat
    else uMap
  let bMap := if res.CpusetCpus ≠ "" then mapSet bMap "AllowedCPUs" (bytesOf res.CpusetCpus) else bMap
  let bMap :=
    if res.CpusetMems ≠ "" then mapSet bMap "AllowedMemoryNodes" (bytesOf res.CpusetMems)
    else bMap
  let iMap := if res.Memory ≠ 0 then mapSet iMap "MemoryMax" res.Memory else iMap
  let iMap := if res.MemorySwap ≠ 0 then mapSet iMap "MemorySwapMax" res.MemorySwap else iMap
  let uMap := if res.BlkioWeight > 0 then mapSet uMap "BlockIOWeight" res.BlkioWeight else uMap
  (uMap, sMap, bMap, iMap)

/-- One call of `StartTransientUnitContext`: unit name, mode, properties. -/
structure UnitCall where
  name : String
  mode : String
  properties : List Property
  deriving DecidableEq, Repr

/-- The D-Bus connection and the Go runtime as `systemdCreate` sees them:
`StartTransientUnit` answers a call from the calls made so far (`none` is
success, and the completion channel is then taken to deliver);
`rangeOrder n` is the order in which the `n`-th `range` over a map visits
its entries, some permutation of them. -/
structure Conn where
  StartTransientUnit : List UnitCall → UnitCall → Option Error
  rangeOrder : Nat → List Property → List Property
  rangeOrder_perm : ∀ n l, (rangeOrder n l).Perm l

/-- The property list `systemdCreate` builds in iteration `i` of its loop. -/
def systemdProperties (c : Conn) (resources : Resources) (slice name : String) (i : Nat) :
    List Property :=
  let properties := [PropDescription ("cgroup " ++ name), PropWants [slice]]
  let pMap : List (String × Bool) :=
    [("DefaultDependencies", false), ("MemoryAccounting", true), ("CPUAccounting", true),
      ("BlockIOAccounting", true)]
  let pMap := if i = 0 then mapSet pMap "Delegate" true else pMap
  let properties :=
    properties ++ c.rangeOrder (5 * i) (pMap.map fun kv => ⟨kv.1, .bool kv.2⟩)
  let maps := resourcesToProps resources
  let properties :=
    properties ++ c.rangeOrder (5 * i + 1) (maps.1.map fun kv => ⟨kv.1, .uint64 kv.2⟩)
  let properties :=
    properties ++ c.rangeOrder (5 * i + 2) (maps.2.1.map fun kv => ⟨kv.1, .str kv.2⟩)
  let properties :=
    properties ++ c.rangeOrder (5 * i + 3) (maps.2.2.1.map fun kv => ⟨kv.1, .bytes kv.2⟩)
  properties ++ c.rangeOrder (5 * i + 4) (maps.2.2.2.map fun kv => ⟨kv.1, .int64 kv.2⟩)

/-- The call iteration `i` of the loop of `systemdCreate` issues for the
cgroup path `path`. -/
def systemdCall (c : Conn) (resources : Resources) (path : String) (i : Nat) : UnitCall :=
  let slice := TrimSuffix (filepath.Split path).1 "/"
  let name := (filepath.Split path).2
  ⟨name, "replace", systemdProperties c resources slice name i⟩

/-- The loop `for i := 0; i < 2; i++` of `systemdCreate`, with `n`
iterations left: the calls issued so far and `lastError`. -/
def systemdCreateLoop (c : Conn) (resources : Resources) (path : String) :
    Nat → Nat → List UnitCall → Option Error → List UnitCall × Option Error
  | 0, _, calls, lastError => (calls, lastError)
  | n + 1, i, calls, _ =>
    match c.StartTransientUnit calls (systemdCall c resources path i) with
    | some err =>
      systemdCreateLoop c resources path n (i + 1)
        (calls ++ [systemdCall c resources path i]) (some err)
    | none => (calls ++ [systemdCall c resources path i], none)

/-- The function `systemdCreate`: the calls issued, in order, and the
returned `error`. -/
def systemdCreate (c : Conn) (resources : Resources) (path : String) :
    List UnitCall × Option Error :=
  systemdCreateLoop c resources path 2 0 [] none

/-! ## CPU-set handler (`cpuset_linux.go`) -/

/-- The method `linuxCpusetHandler.Apply`. -/
def linuxCpusetHandler.Apply (w : World) (ctr : CgroupControl) (res : Resources) : Outcome :=
  if ctr.cgroup2 then
    let path := CgPath.unified ctr.config.Path
    andThen
      (if res.CpusetCpus ≠ "" then WriteFile w [] path "cpuset.cpus" res.CpusetCpus
      else ([], none)) fun tr1 =>
    andThen
      (if res.CpusetMems ≠ "" then WriteFile w tr1 path "cpuset.mems" res.CpusetMems
      else (tr1, none)) done
  else
    let path := CgPath.legacy Controller.CPUset ctr.config.Path
    andThen
      (if res.CpusetCpus ≠ "" then WriteFile w [] path "cpuset.cpus" res.CpusetCpus
      else ([], none)) fun tr1 =>
    andThen
      (if res.CpusetMems ≠ "" then WriteFile w tr1 path "cpuset.mems" res.CpusetMems
      else (tr1, none)) done

/-! ## Pod statistics options (`pkg/domain/entities/pods.go`) -/

/-- The type `PodStatsOptions`. -/
structure PodStatsOptions where
  All : Bool
  Latest : Bool
  deriving DecidableEq, Repr

/-- The function `ValidatePodStatsOptions`: the options after the call (it
receives them through a pointer, taken to be non-nil) and the returned
`error`. -/
def ValidatePodStatsOptions (args : List String) (options : PodStatsOptions) :
    PodStatsOptions × Option Error :=
  let num := 0
  let num := if args.length > 0 then num + 1 else num
  let num := if options.All then num + 1 else num
  let num := if options.Latest then num + 1 else num
  match num with
  | 0 => ({ options with All := true }, none)
  | 1 => (options, none)
  | _ => (options, some (.text "--all, --latest and arguments cannot be used together"))

/-! ## Filters as URL values (`pkg/domain/utils/utils.go`) -/

/-- Cuts a character list at the first occurrence of `sep`, if there is
one. -/
def breakAt (sep : Char) : List Char → Option (List Char × List Char)
  | [] => none
  | c :: cs =>
    if c = sep then some ([], cs)
    else
      match breakAt sep cs with
      | none => none
      | some (before, after) => some (c :: before, after)

/-- Go `strings.SplitN` on a character list, for a one-character separator
and a count `n ≥ 0`: at most `n` pieces, the last one the unsplit rest. -/
def splitNChars (sep : Char) : Nat → List Char → List (List Char)
  | 0, _ => []
  | 1, cs => [cs]
  | n + 2, cs =>
    match breakAt sep cs with
    | none => [cs]
    | some (before, after) => before :: splitNChars sep (n + 1) after

/-- Go `strings.SplitN(s, sep, n)` for a one-character separator. -/
def SplitN (s : String) (sep : Char) (n : Nat) : List String :=
  (splitNChars sep n s.data).map String.mk

/-- Go `url.Values`, a `map[string][]string`, as the list of its entries. -/
abbrev Values := List (String × List String)

/-- Go `url.Values.Add`: appends the value to the list kept under the key. -/
def Values.Add (v : Values) (key value : String) : Values :=
  if v.any fun kv => kv.1 = key then
    v.map fun kv => if kv.1 = key then (kv.1, kv.2 ++ [value]) else kv
  else v ++ [(key, [value])]

/-- The loop of `ToURLValues`; `none` is the run-time panic of an index out
of range in `t[0]` or `t[1]`. -/
def ToURLValuesLoop : List String → Values → Option Values
  | [], filters => some filters
  | v :: f, filters =>
    match SplitN v '=' 2 with
    | t0 :: t1 :: _ => ToURLValuesLoop f (Values.Add filters t0 t1)
    | _ => none

/-- The function `ToURLValues`; `none` when the call panics. -/
def ToURLValues (f : List String) : Option Values := ToURLValuesLoop f []

/-! ## Reading traces -/

/-- The data of the write attempts to the file `name`, in order. -/
def writesTo (name : String) : Trace → List String
  | [] => []
  | Event.write _ n d :: tr => if n = name then d :: writesTo name tr else writesTo name tr
  | _ :: tr => writesTo name tr

/-- The names and data of all write attempts, in order. -/
def writes : Trace → List (String × String)
  | [] => []
  | Event.write _ n d :: tr => (n, d) :: writes tr
  | _ :: tr => writes tr

/-! ## Sample worlds and requests -/

/-- A world in which every operation succeeds: writes are accepted, files
read as `content`, `cpu.shares` reads back as `shares`, the key-value map
files hold `ioStat`, the accounting files hold 0, and `cleanString` leaves
its argument as it is. -/
def World.accepting (content : String) (shares : Nat)
    (ioStat : List (String × List String)) : World where
  write := fun _ _ _ _ => none
  read := fun _ _ _ => .ok content
  readUint := fun _ _ _ => .ok shares
  openFile := fun _ _ _ => none
  bfqDeviceWeightSupported := fun _ _ => false
  GetBlkioFiles := fun _ => ("blkio.weight", "blkio.weight_device")
  SetBlkioThrottle := fun tr _ _ => (tr, none)
  readCgroup2MapFile := fun _ _ => .ok ioStat
  scanFile := fun _ _ => .ok ([], none)
  pathString := fun _ name => name
  cleanString := fun s => s
  readAcct := fun _ _ => .ok 0
  readAcctList := fun _ _ => .ok []

/-- A world without `io.bfq.weight`: opening a file fails with `ENOENT`,
everything else succeeds. -/
def World.noBfq : World :=
  { World.accepting "0" 0 [] with openFile := fun _ _ _ => some (.errno ENOENT) }

/-- A world that rejects, with errno `code`, every write made when the
history holds exactly `n` operations, and accepts all others. -/
def World.failingAt (n : Nat) (code : Nat) : World :=
  { World.accepting "0" 0 [] with
    write := fun tr _ _ _ => if tr.length = n then some (.errno code) else none }

/-- A cgroup on the unified hierarchy. -/
def sampleUnified : CgroupControl := ⟨true, ⟨"machine.slice/pod"⟩⟩

/-- A cgroup on the legacy hierarchy. -/
def sampleLegacy : CgroupControl := ⟨false, ⟨"machine.slice/pod"⟩⟩

/-! ## Reading one line of the legacy block-I/O statistics -/

/-- What the loop of the legacy branch of `linuxBlkioHandler.Stat` does with
one scanned line: skip it, append an entry, or return an error. -/
inductive LineReading where
  | skipped
  | entry (e : BlkioStatEntry)
  | failed (err : Error)
  deriving DecidableEq, Repr

/-- One pass through the body of the loop over the scanned lines in the
legacy branch of `linuxBlkioHandler.Stat`. -/
def readStatLine (line : String) : LineReading :=
  match Fields line with
  | p0 :: p1 :: p2 :: _ =>
    match Split p0 ':' with
    | [d0, d1] =>
      match ParseUint d0 with
      | .error err => .failed err
      | .ok minor =>
        match ParseUint d1 with
        | .error err => .failed err
        | .ok major =>
          match ParseUint p2 with
          | .error err => .failed err
          | .ok value => .entry ⟨major, minor, p1, value⟩
    | _ => .skipped
  | _ => .skipped

/-- Whether the reading of a line makes Stat return an error. -/
def LineReading.isFailed : LineReading → Bool
  | .failed _ => true
  | _ => false

/-- The entry a line contributes, if it contributes one. -/
def LineReading.entry? : LineReading → Option BlkioStatEntry
  | .entry e => some e
  | _ => none

/-- A world whose `blkio.throttle.io_service_bytes_recursive` scans as
`lines`, without a scanner error. -/
def World.withLines (lines : List String) : World :=
  { World.accepting "0" 0 [] with scanFile := fun _ _ => .ok (lines, none) }

/-- A world whose accounting files `cpuacct.usage`, `cpuacct.usage_sys` and
`cpuacct.usage_percpu` read as given. -/
def World.withAcct (usage sys : Except Error Nat) (percpu : Except Error (List Nat)) : World :=
  { World.accepting "0" 0 [] with
    readAcct := fun _ name => if name = "cpuacct.usage" then usage else sys
    readAcctList := fun _ _ => percpu }

/-- A connection that rejects, with errno `code`, the first `failures`
calls and accepts the later ones; maps are visited in insertion order. -/
def Conn.failing (failures : Nat) (code : Nat) : Conn where
  StartTransientUnit := fun calls _ => if calls.length < failures then some (.errno code) else none
  rangeOrder := fun _ l => l
  rangeOrder_perm := fun _ l => List.Perm.refl l

/-- The writes the spec describes for the CPU-set handler, whatever the
hierarchy: `cpuset.cpus` with `CpusetCpus` if that is not empty, then
`cpuset.mems` with `CpusetMems` if that is not empty. -/
def cpusetWritesSpec (res : Resources) : List (String × String) :=
  (if res.CpusetCpus ≠ "" then [("cpuset.cpus", res.CpusetCpus)] else []) ++
  (if res.CpusetMems ≠ "" then [("cpuset.mems", res.CpusetMems)] else [])

/-! ## Auxiliary lemmas -/

theorem toDigitsCore_ne_nil (b : Nat) : ∀ (fuel n : Nat) (ds : List Char),
    ds ≠ [] → Nat.toDigitsCore b fuel n ds ≠ []
  | 0, _, ds, h => by simpa [Nat.toDigitsCore] using h
  | fuel + 1, n, ds, _ => by
    unfold Nat.toDigitsCore
    simp only
    split
    · simp
    · exact toDigitsCore_ne_nil b fuel _ _ (by simp)

theorem FormatUint_ne_empty (n : Nat) : FormatUint n ≠ "" := by
  intro h
  have h1 : (Nat.toDigits 10 n) = [] := by
    have := congrArg String.data h
    simpa [FormatUint, Nat.repr, List.asString] using this
  unfold Nat.toDigits Nat.toDigitsCore at h1
  simp only at h1
  split at h1
  · simp at h1
  · exact toDigitsCore_ne_nil 10 _ _ _ (by simp) h1

theorem FormatInt_ne_empty (i : Int) : FormatInt i ≠ "" := by
  unfold FormatInt
  split
  · intro h
    have := congrArg String.length h
    simp [String.length_append] at this
    exact absurd this.1 (by decide)
  · exact FormatUint_ne_empty _

@[simp] theorem andThen_ok (tr : Trace) (k : Trace → Outcome) :
    andThen (tr, none) k = k tr := rfl

@[simp] theorem andThen_err (tr : Trace) (e : Error) (k : Trace → Outcome) :
    andThen (tr, some e) k = (tr, some e) := rfl

@[simp] theorem andThen_done (r : Outcome) : andThen r done = r := by
  rcases r with ⟨tr, _ | e⟩ <;> rfl

@[simp] theorem WriteFile_fst (w : World) (tr : Trace) (dir : CgPath) (name data : String) :
    (WriteFile w tr dir name data).1 = tr ++ [Event.write dir name data] := rfl

@[simp] theorem WriteFile_snd (w : World) (tr : Trace) (dir : CgPath) (name data : String) :
    (WriteFile w tr dir name data).2 = w.write tr dir name data := rfl

@[simp] theorem writesTo_append (name : String) (a b : Trace) :
    writesTo name (a ++ b) = writesTo name a ++ writesTo name b := by
  induction a with
  | nil => rfl
  | cons e a ih =>
    cases e with
    | write dir n d =>
      by_cases h : n = name <;> simp [writesTo, h, ih]
    | read dir n => simpa [writesTo] using ih
    | openFile dir n => simpa [writesTo] using ih

@[simp] theorem writes_append (a b : Trace) : writes (a ++ b) = writes a ++ writes b := by
  induction a with
  | nil => rfl
  | cons e a ih =>
    cases e with
    | write dir n d => simp [writes, ih]
    | read dir n => simpa [writes] using ih
    | openFile dir n => simpa [writes] using ih

/-- A run of `andThen` only extends the trace of its first part when the
continuation only extends its argument, as far as writes to `name` go. -/
theorem writesTo_andThen (name : String) (r : Outcome) (k : Trace → Outcome)
    (hk : ∀ tr, writesTo name (k tr).1 = writesTo name tr) :
    writesTo name (andThen r k).1 = writesTo name r.1 := by
  rcases r with ⟨tr, _ | e⟩
  · simpa using hk tr
  · rfl

theorem writesTo_writeEach (w : World) (dir : CgPath) (name file : String) (h : file ≠ name) :
    ∀ (ds : List String) (tr : Trace),
      writesTo name (writeEach w dir file ds tr).1 = writesTo name tr
  | [], _ => rfl
  | d :: ds, tr => by
    unfold writeEach
    rw [writesTo_andThen name _ _ (writesTo_writeEach w dir name file h ds)]
    simp [WriteFile, writesTo, h]

theorem writesTo_writeBfqDeviceWeights (w : World) (dir : CgPath) (name : String)
    (h : "io.bfq.weight" ≠ name) :
    ∀ (wds : List WeightDevice) (tr : Trace),
      writesTo name (writeBfqDeviceWeights w dir wds tr).1 = writesTo name tr
  | [], _ => rfl
  | wd :: wds, tr => by
    unfold writeBfqDeviceWeights
    cases hw : w.write tr dir "io.bfq.weight" (wd.WeightString ++ "\n") with
    | none =>
      simp only [WriteFile, hw]
      rw [writesTo_writeBfqDeviceWeights w dir name h wds]
      simp [writesTo, h]
    | some e => simp [WriteFile, hw, writesTo, h]

theorem writesTo_blkioUnifiedThrottle (w : World) (path : CgPath) (res : Resources)
    (name : String) (h : "io.max" ≠ name) (tr : Trace) :
    writesTo name (blkioUnifiedThrottle w path res tr).1 = writesTo name tr := by
  unfold blkioUnifiedThrottle
  have e := writesTo_writeEach w path name "io.max" h
  rw [writesTo_andThen, e]
  intro t1
  rw [writesTo_andThen, e]
  intro t2
  rw [writesTo_andThen, e]
  intro t3
  rw [writesTo_andThen, e]
  intro t4
  rfl

/-! ## Block-I/O weight on the unified hierarchy -/

theorem blkioWeightRescale_eq (wt : Nat) (hlo : 10 ≤ wt) (hhi : wt ≤ 1000) :
    blkioWeightRescale wt = 1 + (wt - 10) * 9999 / 990 := by
  unfold blkioWeightRescale
  have h1 : (wt + 2 ^ 64 - 10) % 2 ^ 64 = wt - 10 := by omega
  have h2 : (wt - 10) * 9999 % 2 ^ 64 = (wt - 10) * 9999 := Nat.mod_eq_of_lt (by omega)
  rw [h1, h2]
  exact Nat.mod_eq_of_lt (by omega)

/-- What `linuxBlkioHandler.Apply` writes to `io.weight` on the unified
hierarchy when `io.bfq.weight` does not exist and a weight is requested. -/
theorem blkio_io_weight_writes (w : World) (ctr : CgroupControl) (res : Resources)
    (err : Error) (hv2 : ctr.cgroup2 = true)
    (hopen : w.openFile [] (CgPath.unified ctr.config.Path) "io.bfq.weight" = some err)
    (hne : os_IsNotExist err = true) (hw : res.BlkioWeight ≠ 0) :
    writesTo "io.weight" (linuxBlkioHandler.Apply w ctr res).1
      = [FormatUint (blkioWeightRescale res.BlkioWeight)] := by
  have hthr := writesTo_blkioUnifiedThrottle w (CgPath.unified ctr.config.Path) res
    "io.weight" (by decide)
  have hdev := writesTo_writeBfqDeviceWeights w (CgPath.unified ctr.config.Path)
    "io.weight" (by decide) res.BlkioWeightDevice
  simp only [linuxBlkioHandler.Apply, hv2, if_true, hw, ne_eq, not_false_eq_true, true_or,
    hopen, hne, blkioUnifiedWeight, Bool.false_eq_true, if_false]
  rw [writesTo_andThen]
  · simp [WriteFile, writesTo]
  · intro t1
    rw [writesTo_andThen _ _ _ hthr]
    split
    · exact hdev t1
    · rfl

/-- C1: on the unified hierarchy without `io.bfq.weight`, for a weight
`10 ≤ w ≤ 1000` the only string `linuxBlkioHandler.Apply` writes to
`io.weight` is the decimal rendering of `1 + (w - 10) * 9999 / 990`; that
value lies in `[1, 10000]`; `w = 10` writes "1" and `w = 1000` writes
"10000". -/
theorem blkio_unified_weight_rescaled (w : World) (ctr : CgroupControl) (res : Resources)
    (err : Error) (hv2 : ctr.cgroup2 = true)
    (hopen : w.openFile [] (CgPath.unified ctr.config.Path) "io.bfq.weight" = some err)
    (hne : os_IsNotExist err = true)
    (hlo : 10 ≤ res.BlkioWeight) (hhi : res.BlkioWeight ≤ 1000) :
    writesTo "io.weight" (linuxBlkioHandler.Apply w ctr res).1
        = [FormatUint (1 + (res.BlkioWeight - 10) * 9999 / 990)]
      ∧ 1 ≤ 1 + (res.BlkioWeight - 10) * 9999 / 990
      ∧ 1 + (res.BlkioWeight - 10) * 9999 / 990 ≤ 10000
      ∧ (res.BlkioWeight = 10 →
          writesTo "io.weight" (linuxBlkioHandler.Apply w ctr res).1 = ["1"])
      ∧ (res.BlkioWeight = 1000 →
          writesTo "io.weight" (linuxBlkioHandler.Apply w ctr res).1 = ["10000"]) := by
  have hmain := blkio_io_weight_writes w ctr res err hv2 hopen hne (by omega)
  rw [blkioWeightRescale_eq _ hlo hhi] at hmain
  refine ⟨hmain, by omega, by omega, ?_, ?_⟩
  · intro h
    rw [hmain, h]
    decide
  · intro h
    rw [hmain, h]
    decide

/-- C2: the rescaling of `linuxBlkioHandler.Apply` is monotonically
non-decreasing on the legacy range: `10 ≤ a ≤ b ≤ 1000` gives
`v(a) ≤ v(b)`. -/
theorem blkio_rescale_monotone (a b : Nat) (ha : 10 ≤ a) (hab : a ≤ b) (hb : b ≤ 1000) :
    blkioWeightRescale a ≤ blkioWeightRescale b := by
  rw [blkioWeightRescale_eq a ha (by omega), blkioWeightRescale_eq b (by omega) hb]
  have h : (a - 10) * 9999 ≤ (b - 10) * 9999 := by omega
  have := Nat.div_le_div_right (c := 990) h
  omega

/-- Witness for C1 at weight 500 in a world without `io.bfq.weight`. -/
theorem blkio_unified_weight_rescaled_witness :
    writesTo "io.weight"
        (linuxBlkioHandler.Apply World.noBfq sampleUnified
          { Resources.zero with BlkioWeight := 500 }).1
      = [FormatUint (1 + (500 - 10) * 9999 / 990)] :=
  (blkio_unified_weight_rescaled World.noBfq sampleUnified
    { Resources.zero with BlkioWeight := 500 } (.errno ENOENT) rfl rfl rfl
    (by decide) (by decide)).1

/-- Witness for C2 at the weights 10 and 1000. -/
theorem blkio_rescale_monotone_witness :
    blkioWeightRescale 10 ≤ blkioWeightRescale 1000 :=
  blkio_rescale_monotone 10 1000 (by decide) (by decide) (by decide)

/-! ## Block-I/O statistics on the unified hierarchy -/

/-- C3: on the `io.stat` line "8:0 rbytes=1024 wbytes=2048"
`linuxBlkioHandler.Stat` reports the read entry 1024 and the write entry
2048 under major 0 and minor 8: the first number of the device key is stored
as the minor, the second as the major. -/
theorem blkio_stat_unified_device_numbers :
    linuxBlkioHandler.Stat
        (World.accepting "0" 0 [("8:0", ["rbytes=1024", "wbytes=2048"])])
        sampleUnified Stats.zero
      = ({ Stats.zero with
            BlkioStats := ⟨[⟨0, 8, "read", 1024⟩, ⟨0, 8, "write", 2048⟩]⟩ }, none) := by
  decide

/-! ## PIDs limit -/

/-- C4, as stated, fails at `PidsLimit = 0`: on the legacy hierarchy
`linuxPidHandler.Apply` then performs no operation at all, so "max" is not
written to `pids.max`. -/
theorem pids_legacy_zero_not_max :
    Resources.zero.PidsLimit ≤ 0 ∧
    (linuxPidHandler.Apply (World.accepting "0" 0 []) sampleLegacy Resources.zero).1 = [] ∧
    writesTo "pids.max"
      (linuxPidHandler.Apply (World.accepting "0" 0 []) sampleLegacy Resources.zero).1
      ≠ ["max"] := by
  decide

/-- C4, amended: on the legacy hierarchy `linuxPidHandler.Apply` writes the
token "max" to `pids.max` for every `PidsLimit < 0`, the decimal rendering of
the limit for every `PidsLimit > 0`, and performs no operation for
`PidsLimit = 0`. -/
theorem pids_legacy_limit (w : World) (ctr : CgroupControl) (res : Resources)
    (hleg : ctr.cgroup2 = false) :
    (res.PidsLimit < 0 →
      (linuxPidHandler.Apply w ctr res).1
        = [Event.write (CgPath.legacy Controller.Pids ctr.config.Path) "pids.max" "max"]) ∧
    (0 < res.PidsLimit →
      (linuxPidHandler.Apply w ctr res).1
        = [Event.write (CgPath.legacy Controller.Pids ctr.config.Path) "pids.max"
            (FormatInt res.PidsLimit)]) ∧
    (res.PidsLimit = 0 → linuxPidHandler.Apply w ctr res = ([], none)) := by
  refine ⟨?_, ?_, ?_⟩
  · intro h
    have h0 : res.PidsLimit ≠ 0 := by omega
    have h1 : ¬ res.PidsLimit > 0 := by omega
    simp [linuxPidHandler.Apply, hleg, h0, h1]
  · intro h
    have h0 : res.PidsLimit ≠ 0 := by omega
    have h1 : res.PidsLimit > 0 := h
    simp [linuxPidHandler.Apply, hleg, h0, h1]
  · intro h
    simp [linuxPidHandler.Apply, hleg, h]

/-- Witness for the amended C4 at `PidsLimit = -1`. -/
theorem pids_legacy_limit_witness :
    (linuxPidHandler.Apply (World.accepting "0" 0 []) sampleLegacy
        { Resources.zero with PidsLimit := -1 }).1
      = [Event.write (CgPath.legacy Controller.Pids "machine.slice/pod") "pids.max" "max"] :=
  (pids_legacy_limit (World.accepting "0" 0 []) sampleLegacy
    { Resources.zero with PidsLimit := -1 } rfl).1 (by decide)

/-- C5: on the unified hierarchy `linuxPidHandler.Apply` makes, for every
`PidsLimit`, exactly one operation: a write to `pids.max` of the decimal
rendering of the limit; for `PidsLimit = 0` the content is "0". -/
theorem pids_unified_limit (w : World) (ctr : CgroupControl) (res : Resources)
    (hv2 : ctr.cgroup2 = true) :
    (linuxPidHandler.Apply w ctr res).1
        = [Event.write (CgPath.unified ctr.config.Path) "pids.max" (FormatInt res.PidsLimit)] ∧
    (res.PidsLimit = 0 →
      (linuxPidHandler.Apply w ctr res).1
        = [Event.write (CgPath.unified ctr.config.Path) "pids.max" "0"]) := by
  have hmain : (linuxPidHandler.Apply w ctr res).1
      = [Event.write (CgPath.unified ctr.config.Path) "pids.max" (FormatInt res.PidsLimit)] := by
    simp [linuxPidHandler.Apply, hv2, FormatInt_ne_empty]
  refine ⟨hmain, ?_⟩
  intro h
  rw [hmain, h]
  rfl

/-- Witness for C5 at `PidsLimit = 0`. -/
theorem pids_unified_limit_witness :
    (linuxPidHandler.Apply (World.accepting "0" 0 []) sampleUnified Resources.zero).1
      = [Event.write (CgPath.unified "machine.slice/pod") "pids.max" "0"] :=
  (pids_unified_limit (World.accepting "0" 0 []) sampleUnified Resources.zero rfl).2 rfl

/-! ## Memory and swap limits on the legacy hierarchy -/

/-- C6: for memory = 100 MiB and swap = 50 MiB on the legacy hierarchy, with
the current limit read as 100 MiB (at least the new swap value),
`linuxMemHandler.Apply` reads `memory.limit_in_bytes`, writes neither
`memory.limit_in_bytes` nor `memory.memsw.limit_in_bytes`, and returns
`nil`. -/
theorem mem_legacy_limit_first_not_written :
    linuxMemHandler.Apply (World.accepting "104857600\n" 0 []) sampleLegacy
        { Resources.zero with Memory := 104857600, MemorySwap := 52428800 }
      = ([Event.read (CgPath.legacy Controller.Memory "machine.slice/pod")
            "memory.limit_in_bytes"], none) := by
  decide

/-- C7: on the legacy hierarchy, for a request with `Memory ≠ 0` and
`MemorySwap ≠ 0` (an `int64`, so below `2 ^ 63`) where `MemorySwap = -1` or
the current limit `L` read from
`memory.limit_in_bytes` is less than `MemorySwap`, `linuxMemHandler.Apply`
first writes the decimal `MemorySwap` to `memory.memsw.limit_in_bytes` and,
that write being accepted, then the decimal `Memory` to
`memory.limit_in_bytes`; these are its only writes. -/
theorem mem_legacy_swap_first (w : World) (ctr : CgroupControl) (res : Resources)
    (s : String) (L : Nat) (hleg : ctr.cgroup2 = false)
    (hm : res.Memory ≠ 0) (hs : res.MemorySwap ≠ 0) (hint : res.MemorySwap < 2 ^ 63)
    (hread : w.read [] (CgPath.legacy Controller.Memory ctr.config.Path)
      "memory.limit_in_bytes" = .ok s)
    (hparse : ParseUint (TrimSpace s) = .ok L)
    (hcond : res.MemorySwap = -1 ∨ (L : Int) < res.MemorySwap) :
    (∃ rest, writes (linuxMemHandler.Apply w ctr res).1
      = ("memory.memsw.limit_in_bytes", FormatInt res.MemorySwap) :: rest) ∧
    (w.write [Event.read (CgPath.legacy Controller.Memory ctr.config.Path)
          "memory.limit_in_bytes"]
        (CgPath.legacy Controller.Memory ctr.config.Path) "memory.memsw.limit_in_bytes"
        (FormatInt res.MemorySwap) = none →
      (linuxMemHandler.Apply w ctr res).1
        = [Event.read (CgPath.legacy Controller.Memory ctr.config.Path)
            "memory.limit_in_bytes",
          Event.write (CgPath.legacy Controller.Memory ctr.config.Path)
            "memory.memsw.limit_in_bytes" (FormatInt res.MemorySwap),
          Event.write (CgPath.legacy Controller.Memory ctr.config.Path)
            "memory.limit_in_bytes" (FormatInt res.Memory)]) := by
  have hbranch : res.MemorySwap = -1 ∨ (L : Int) < res.MemorySwap % 18446744073709551616 := by
    rcases hcond with h | h
    · exact Or.inl h
    · right
      have hpos : 0 ≤ res.MemorySwap := by omega
      have hmod : res.MemorySwap % 18446744073709551616 = res.MemorySwap :=
        Int.emod_eq_of_lt hpos (by omega)
      rw [hmod]
      exact h
  have hprobe : ¬ (res.Memory = -1 ∧ res.MemorySwap = 0) := fun h => hs h.2
  constructor
  · cases hw : w.write [Event.read (CgPath.legacy Controller.Memory ctr.config.Path)
        "memory.limit_in_bytes"]
      (CgPath.legacy Controller.Memory ctr.config.Path) "memory.memsw.limit_in_bytes"
      (FormatInt res.MemorySwap) with
    | none =>
      refine ⟨[("memory.limit_in_bytes", FormatInt res.Memory)], ?_⟩
      simp [linuxMemHandler.Apply, hleg, hm, hs, hprobe, hread, hparse, hbranch, WriteFile,
        hw, writes]
    | some e =>
      refine ⟨[], ?_⟩
      simp [linuxMemHandler.Apply, hleg, hm, hs, hprobe, hread, hparse, hbranch, WriteFile,
        hw, writes]
  · intro hw
    simp [linuxMemHandler.Apply, hleg, hm, hs, hprobe, hread, hparse, hbranch, WriteFile, hw]

/-- Witness for C7: current limit 0, memory 100 MiB, swap 200 MiB. -/
theorem mem_legacy_swap_first_witness :
    (linuxMemHandler.Apply (World.accepting "0\n" 0 []) sampleLegacy
        { Resources.zero with Memory := 104857600, MemorySwap := 209715200 }).1
      = [Event.read (CgPath.legacy Controller.Memory "machine.slice/pod")
            "memory.limit_in_bytes",
          Event.write (CgPath.legacy Controller.Memory "machine.slice/pod")
            "memory.memsw.limit_in_bytes" (FormatInt 209715200),
          Event.write (CgPath.legacy Controller.Memory "machine.slice/pod")
            "memory.limit_in_bytes" (FormatInt 104857600)] :=
  (mem_legacy_swap_first (World.accepting "0\n" 0 []) sampleLegacy
    { Resources.zero with Memory := 104857600, MemorySwap := 209715200 } "0\n" 0
    rfl (by decide) (by decide) (by decide) rfl (by decide) (Or.inr (by decide))).2 rfl

/-! ## CPU shares, period and quota on the legacy hierarchy -/

/-- C8: on the legacy hierarchy with `CpuShares = s ≠ 0`, once `s` is written
to `cpu.shares` and `r` is read back: if `r = s` no shares error is raised
and `linuxCpuHandler.Apply` goes on with the period; if `s > r` it fails
naming `r` as the maximum allowed cpu-shares, if `s < r` naming `r` as the
minimum; in both failures the write and the read-back are its only
operations. -/
theorem cpu_legacy_shares_readback (w : World) (ctr : CgroupControl) (res : Resources)
    (r : Nat) (hleg : ctr.cgroup2 = false) (hs : res.CpuShares ≠ 0)
    (hw : w.write [] (CgPath.legacy Controller.CPU ctr.config.Path) "cpu.shares"
      (FormatUint res.CpuShares) = none)
    (hr : w.readUint
      [Event.write (CgPath.legacy Controller.CPU ctr.config.Path) "cpu.shares"
        (FormatUint res.CpuShares)]
      (CgPath.legacy Controller.CPU ctr.config.Path) "cpu.shares" = .ok r) :
    (r = res.CpuShares →
      linuxCpuHandler.Apply w ctr res
        = cpuLegacyPeriod w (CgPath.legacy Controller.CPU ctr.config.Path) res
            [Event.write (CgPath.legacy Controller.CPU ctr.config.Path) "cpu.shares"
              (FormatUint res.CpuShares),
             Event.read (CgPath.legacy Controller.CPU ctr.config.Path) "cpu.shares"]) ∧
    (res.CpuShares > r →
      linuxCpuHandler.Apply w ctr res
        = ([Event.write (CgPath.legacy Controller.CPU ctr.config.Path) "cpu.shares"
              (FormatUint res.CpuShares),
            Event.read (CgPath.legacy Controller.CPU ctr.config.Path) "cpu.shares"],
           some (.text ("the maximum allowed cpu-shares is " ++ FormatUint r)))) ∧
    (res.CpuShares < r →
      linuxCpuHandler.Apply w ctr res
        = ([Event.write (CgPath.legacy Controller.CPU ctr.config.Path) "cpu.shares"
              (FormatUint res.CpuShares),
            Event.read (CgPath.legacy Controller.CPU ctr.config.Path) "cpu.shares"],
           some (.text ("the minimum allowed cpu-shares is " ++ FormatUint r)))) := by
  refine ⟨?_, ?_, ?_⟩
  · intro h
    subst h
    simp [linuxCpuHandler.Apply, hleg, cpuLegacyShares, hs, WriteFile, hw, hr]
  · intro h
    simp [linuxCpuHandler.Apply, hleg, cpuLegacyShares, hs, WriteFile, hw, hr, h]
  · intro h
    have h1 : ¬ r < res.CpuShares := by omega
    simp [linuxCpuHandler.Apply, hleg, cpuLegacyShares, hs, WriteFile, hw, hr, h, h1]

/-- Witness for C8: 262145 shares requested, the kernel stores 262144. -/
theorem cpu_legacy_shares_readback_witness :
    linuxCpuHandler.Apply (World.accepting "0" 262144 []) sampleLegacy
        { Resources.zero with CpuShares := 262145 }
      = ([Event.write (CgPath.legacy Controller.CPU "machine.slice/pod") "cpu.shares"
            (FormatUint 262145),
          Event.read (CgPath.legacy Controller.CPU "machine.slice/pod") "cpu.shares"],
         some (.text ("the maximum allowed cpu-shares is " ++ FormatUint 262144))) :=
  (cpu_legacy_shares_readback (World.accepting "0" 262144 []) sampleLegacy
    { Resources.zero with CpuShares := 262145 } 262144 rfl (by decide) rfl rfl).2.1
    (by decide)

theorem writesTo_cpuLegacyRt (w : World) (path : CgPath) (res : Resources) (name : String)
    (h1 : "cpu.rt_period_us" ≠ name) (h2 : "cpu.rt_runtime_us" ≠ name) (tr : Trace) :
    writesTo name (cpuLegacyRt w path res tr).1 = writesTo name tr := by
  unfold cpuLegacyRt
  rw [writesTo_andThen]
  · split
    · simp [writesTo, h1]
    · rfl
  · intro t1
    rw [andThen_done]
    split
    · simp [writesTo, h2]
    · rfl

theorem writesTo_period_cpuLegacyQuota (w : World) (path : CgPath) (res : Resources)
    (tr : Trace) :
    writesTo "cpu.cfs_period_us" (cpuLegacyQuota w path res "" tr).1
      = writesTo "cpu.cfs_period_us" tr := by
  have hrt := writesTo_cpuLegacyRt w path res "cpu.cfs_period_us" (by decide) (by decide)
  unfold cpuLegacyQuota
  split
  · rw [writesTo_andThen]
    · simp [writesTo]
    · intro t1
      simpa using hrt t1
  · exact hrt tr

theorem writesTo_cpuLegacyShares (w : World) (path : CgPath) (res : Resources)
    (name : String) (h : "cpu.shares" ≠ name) :
    writesTo name (cpuLegacyShares w path res).1 = [] := by
  unfold cpuLegacyShares
  split
  · cases hw : w.write [] path "cpu.shares" (FormatUint res.CpuShares) with
    | some e => simp [WriteFile, hw, writesTo, h]
    | none =>
      simp only [WriteFile, hw, andThen_ok]
      split
      · simp [writesTo, h]
      · split
        · simp [writesTo, h]
        · split <;> simp [writesTo, h]
  · rfl

/-- C9: on the legacy hierarchy with `CpuPeriod ≠ 0`, once the `cpu.shares`
block has passed with trace `tr`: if the first write to `cpu.cfs_period_us`
fails with `EINVAL` and `CpuQuota ≠ 0`, `linuxCpuHandler.Apply` writes
`cpu.cfs_quota_us` and then `cpu.cfs_period_us` again and, both writes being
accepted, goes on to the real-time settings without an error (it returns
`nil` when none is requested); if the first period write fails with another
error, or while `CpuQuota = 0`, that error is returned and the period write
is the last operation; if the first period write is accepted, the period
file is written exactly once. -/
theorem cpu_legacy_period_retry (w : World) (ctr : CgroupControl) (res : Resources)
    (tr : Trace) (hleg : ctr.cgroup2 = false) (hp : res.CpuPeriod ≠ 0)
    (hshares : cpuLegacyShares w (CgPath.legacy Controller.CPU ctr.config.Path) res
      = (tr, none)) :
    (∀ err,
      w.write tr (CgPath.legacy Controller.CPU ctr.config.Path) "cpu.cfs_period_us"
        (FormatUint res.CpuPeriod) = some err →
      err.Is EINVAL = true → res.CpuQuota ≠ 0 →
      w.write
        (tr ++ [Event.write (CgPath.legacy Controller.CPU ctr.config.Path)
          "cpu.cfs_period_us" (FormatUint res.CpuPeriod)])
        (CgPath.legacy Controller.CPU ctr.config.Path) "cpu.cfs_quota_us"
        (FormatInt res.CpuQuota) = none →
      w.write
        (tr ++ [Event.write (CgPath.legacy Controller.CPU ctr.config.Path)
            "cpu.cfs_period_us" (FormatUint res.CpuPeriod),
          Event.write (CgPath.legacy Controller.CPU ctr.config.Path)
            "cpu.cfs_quota_us" (FormatInt res.CpuQuota)])
        (CgPath.legacy Controller.CPU ctr.config.Path) "cpu.cfs_period_us"
        (FormatUint res.CpuPeriod) = none →
      linuxCpuHandler.Apply w ctr res
          = cpuLegacyRt w (CgPath.legacy Controller.CPU ctr.config.Path) res
              (tr ++ [Event.write (CgPath.legacy Controller.CPU ctr.config.Path)
                  "cpu.cfs_period_us" (FormatUint res.CpuPeriod),
                Event.write (CgPath.legacy Controller.CPU ctr.config.Path)
                  "cpu.cfs_quota_us" (FormatInt res.CpuQuota),
                Event.write (CgPath.legacy Controller.CPU ctr.config.Path)
                  "cpu.cfs_period_us" (FormatUint res.CpuPeriod)]) ∧
        (res.CpuRtPeriod = 0 → res.CpuRtRuntime = 0 →
          linuxCpuHandler.Apply w ctr res
            = (tr ++ [Event.write (CgPath.legacy Controller.CPU ctr.config.Path)
                  "cpu.cfs_period_us" (FormatUint res.CpuPeriod),
                Event.write (CgPath.legacy Controller.CPU ctr.config.Path)
                  "cpu.cfs_quota_us" (FormatInt res.CpuQuota),
                Event.write (CgPath.legacy Controller.CPU ctr.config.Path)
                  "cpu.cfs_period_us" (FormatUint res.CpuPeriod)], none))) ∧
    (∀ err,
      w.write tr (CgPath.legacy Controller.CPU ctr.config.Path) "cpu.cfs_period_us"
        (FormatUint res.CpuPeriod) = some err →
      err.Is EINVAL = false ∨ res.CpuQuota = 0 →
      linuxCpuHandler.Apply w ctr res
        = (tr ++ [Event.write (CgPath.legacy Controller.CPU ctr.config.Path)
            "cpu.cfs_period_us" (FormatUint res.CpuPeriod)], some err)) ∧
    (w.write tr (CgPath.legacy Controller.CPU ctr.config.Path) "cpu.cfs_period_us"
        (FormatUint res.CpuPeriod) = none →
      writesTo "cpu.cfs_period_us" (linuxCpuHandler.Apply w ctr res).1
        = [FormatUint res.CpuPeriod]) := by
  have happly : linuxCpuHandler.Apply w ctr res
      = cpuLegacyPeriod w (CgPath.legacy Controller.CPU ctr.config.Path) res tr := by
    simp [linuxCpuHandler.Apply, hleg, hshares]
  have hpne := FormatUint_ne_empty res.CpuPeriod
  refine ⟨?_, ?_, ?_⟩
  · intro err h1 hE hq h2 h3
    have hstep : linuxCpuHandler.Apply w ctr res
        = cpuLegacyRt w (CgPath.legacy Controller.CPU ctr.config.Path) res
            (tr ++ [Event.write (CgPath.legacy Controller.CPU ctr.config.Path)
                "cpu.cfs_period_us" (FormatUint res.CpuPeriod),
              Event.write (CgPath.legacy Controller.CPU ctr.config.Path)
                "cpu.cfs_quota_us" (FormatInt res.CpuQuota),
              Event.write (CgPath.legacy Controller.CPU ctr.config.Path)
                "cpu.cfs_period_us" (FormatUint res.CpuPeriod)]) := by
      rw [happly]
      simp [cpuLegacyPeriod, hp, WriteFile, h1, hE, hq, cpuLegacyQuota, h2, h3, hpne]
    refine ⟨hstep, ?_⟩
    intro hr1 hr2
    rw [hstep]
    simp [cpuLegacyRt, hr1, hr2, done]
  · intro err h1 hor
    rw [happly]
    rcases hor with hE | hq
    · simp [cpuLegacyPeriod, hp, WriteFile, h1, hE]
    · simp [cpuLegacyPeriod, hp, WriteFile, h1, hq]
  · intro h1
    have hsh := writesTo_cpuLegacyShares w (CgPath.legacy Controller.CPU ctr.config.Path)
      res "cpu.cfs_period_us" (by decide)
    rw [hshares] at hsh
    rw [happly]
    simp only [cpuLegacyPeriod, hp, ne_eq, not_false_eq_true, if_true, WriteFile, h1]
    rw [writesTo_period_cpuLegacyQuota]
    simp [writesTo, hsh]

/-- Witness for C9: the first write is rejected with `EINVAL`, the quota and
the second period write are accepted. -/
theorem cpu_legacy_period_retry_witness :
    linuxCpuHandler.Apply (World.failingAt 0 EINVAL) sampleLegacy
        { Resources.zero with CpuPeriod := 1000000, CpuQuota := 500000 }
      = ([Event.write (CgPath.legacy Controller.CPU "machine.slice/pod")
            "cpu.cfs_period_us" (FormatUint 1000000),
          Event.write (CgPath.legacy Controller.CPU "machine.slice/pod")
            "cpu.cfs_quota_us" (FormatInt 500000),
          Event.write (CgPath.legacy Controller.CPU "machine.slice/pod")
            "cpu.cfs_period_us" (FormatUint 1000000)], none) :=
  ((cpu_legacy_period_retry (World.failingAt 0 EINVAL) sampleLegacy
    { Resources.zero with CpuPeriod := 1000000, CpuQuota := 500000 } [] rfl (by decide)
    rfl).1 (.errno EINVAL) rfl rfl (by decide) rfl rfl).2 rfl rfl

/-! ## CPU bandwidth on the unified hierarchy -/

/-- C10: on the unified hierarchy, whenever `CpuQuota ≠ 0` or
`CpuPeriod ≠ 0`, a run of `linuxCpuHandler.Apply` that gets past `cpu.weight`
(no weight requested, or its write accepted) makes exactly one write to
`cpu.max`, with content "q p": `q` the decimal `CpuQuota` if it is positive
and "max" otherwise, `p` the decimal `CpuPeriod` if it is not 0 and "100000"
otherwise; no run writes anything else to `cpu.max`, and when both are 0
nothing is written to `cpu.max`. -/
theorem cpu_unified_max (w : World) (ctr : CgroupControl) (res : Resources)
    (hv2 : ctr.cgroup2 = true) :
    (res.CpuQuota ≠ 0 ∨ res.CpuPeriod ≠ 0 →
      (res.CpuWeight = 0 ∨
        w.write [] (CgPath.unified ctr.config.Path) "cpu.weight"
          (FormatUint res.CpuWeight) = none) →
      writesTo "cpu.max" (linuxCpuHandler.Apply w ctr res).1
        = [(if res.CpuQuota > 0 then FormatInt res.CpuQuota else "max") ++ " " ++
            (if res.CpuPeriod ≠ 0 then FormatUint res.CpuPeriod else "100000")]) ∧
    (∀ d ∈ writesTo "cpu.max" (linuxCpuHandler.Apply w ctr res).1,
      d = (if res.CpuQuota > 0 then FormatInt res.CpuQuota else "max") ++ " " ++
            (if res.CpuPeriod ≠ 0 then FormatUint res.CpuPeriod else "100000")) ∧
    (res.CpuQuota = 0 → res.CpuPeriod = 0 →
      writesTo "cpu.max" (linuxCpuHandler.Apply w ctr res).1 = []) := by
  have hdef : FormatUint 100000 = "100000" := by decide
  have hper : FormatUint (if res.CpuPeriod = 0 then 100000 else res.CpuPeriod)
      = (if res.CpuPeriod ≠ 0 then FormatUint res.CpuPeriod else "100000") := by
    by_cases h : res.CpuPeriod = 0 <;> simp [h, hdef]
  refine ⟨?_, ?_, ?_⟩
  · intro hqp hwt
    rcases hwt with h0 | hok
    · simp only [linuxCpuHandler.Apply, hv2, if_true, h0, ne_eq, not_true_eq_false, if_false,
        andThen_ok, hqp, andThen_done, WriteFile_fst, hper]
      simp [writesTo]
    · by_cases h0 : res.CpuWeight = 0
      · simp only [linuxCpuHandler.Apply, hv2, if_true, h0, ne_eq, not_true_eq_false,
          if_false, andThen_ok, hqp, andThen_done, WriteFile_fst, hper]
        simp [writesTo]
      · simp only [linuxCpuHandler.Apply, hv2, if_true, h0, ne_eq, not_false_eq_true,
          WriteFile, hok, andThen_ok, hqp, andThen_done, hper]
        simp [writesTo]
  · intro d hd
    by_cases h0 : res.CpuWeight = 0
    · by_cases hqp : res.CpuQuota ≠ 0 ∨ res.CpuPeriod ≠ 0
      · simp only [linuxCpuHandler.Apply, hv2, if_true, h0, ne_eq, not_true_eq_false,
          if_false, andThen_ok, hqp, andThen_done, WriteFile_fst, hper] at hd
        simpa [writesTo] using hd
      · simp [linuxCpuHandler.Apply, hv2, h0, hqp, writesTo] at hd
    · cases hok : w.write [] (CgPath.unified ctr.config.Path) "cpu.weight"
          (FormatUint res.CpuWeight) with
      | some e =>
        simp [linuxCpuHandler.Apply, hv2, h0, WriteFile, hok, writesTo] at hd
      | none =>
        by_cases hqp : res.CpuQuota ≠ 0 ∨ res.CpuPeriod ≠ 0
        · simp only [linuxCpuHandler.Apply, hv2, if_true, h0, ne_eq, not_false_eq_true,
            WriteFile, hok, andThen_ok, hqp, andThen_done, hper] at hd
          simpa [writesTo] using hd
        · simp [linuxCpuHandler.Apply, hv2, h0, WriteFile, hok, hqp, writesTo] at hd
  · intro hq hp
    by_cases h0 : res.CpuWeight = 0
    · simp [linuxCpuHandler.Apply, hv2, h0, hq, hp, writesTo]
    · cases hok : w.write [] (CgPath.unified ctr.config.Path) "cpu.weight"
          (FormatUint res.CpuWeight) with
      | some e => simp [linuxCpuHandler.Apply, hv2, h0, WriteFile, hok, writesTo]
      | none => simp [linuxCpuHandler.Apply, hv2, h0, WriteFile, hok, hq, hp, writesTo]

/-- Witness for C10: a quota without a period, and a weight. -/
theorem cpu_unified_max_witness :
    writesTo "cpu.max"
        (linuxCpuHandler.Apply (World.accepting "0" 0 []) sampleUnified
          { Resources.zero with CpuQuota := 50000, CpuWeight := 100 }).1
      = ["50000 100000"] :=
  ((cpu_unified_max (World.accepting "0" 0 []) sampleUnified
    { Resources.zero with CpuQuota := 50000, CpuWeight := 100 } rfl).1
    (Or.inl (by decide)) (Or.inr rfl)).trans (by decide)

/-! ## CPU statistics on the unified hierarchy -/

/-- C11: on the `cpu.stat` map holding only `usage_usec = 5`
`linuxCpuHandler.Stat` reports `TotalUsage = 5`, not 5000: the
multiplication by 1000 in the `usage_usec` block is applied to
`UsageInKernelmode`, and `TotalUsage` is only multiplied in the
`system_usec` block. -/
theorem cpu_stat_unified_total_usage_unscaled :
    linuxCpuHandler.Stat (World.accepting "0" 0 [("usage_usec", ["5"])])
        sampleUnified Stats.zero
      = some ({ Stats.zero with CpuStats := ⟨⟨5, 0, []⟩⟩ }, none) := by
  decide

/-- C12: on the `cpu.stat` map with `usage_usec = 5`, `user_usec = 3` and
`system_usec = 2` `linuxCpuHandler.Stat` reports `UsageInKernelmode = 2`,
not 2000 (and `TotalUsage = 5000`): `UsageInKernelmode` is multiplied by
1000 only before it is assigned, in the `usage_usec` block. -/
theorem cpu_stat_unified_kernelmode_unscaled :
    linuxCpuHandler.Stat
        (World.accepting "0" 0
          [("usage_usec", ["5"]), ("user_usec", ["3"]), ("system_usec", ["2"])])
        sampleUnified Stats.zero
      = some ({ Stats.zero with CpuStats := ⟨⟨5000, 2, []⟩⟩ }, none) := by
  decide

/-! ## Memory limits on the unified hierarchy -/

/-- The unified branch of `linuxMemHandler.Apply` once the swap conversion
has given `swap`: the decimal formatter never returns the empty string, so
the three writes are attempted in turn. -/
theorem mem_unified_apply (w : World) (ctr : CgroupControl) (res : Resources) (swap : Int)
    (hv2 : ctr.cgroup2 = true)
    (hconv : ConvertMemorySwapToCgroupV2Value res.MemorySwap res.Memory = .ok swap) :
    linuxMemHandler.Apply w ctr res
      = andThen (WriteFile w [] (CgPath.unified ctr.config.Path) "memory.swap.max"
          (FormatInt swap)) fun tr1 =>
        andThen (WriteFile w tr1 (CgPath.unified ctr.config.Path) "memory.max"
          (FormatInt res.Memory)) fun tr2 =>
        andThen (WriteFile w tr2 (CgPath.unified ctr.config.Path) "memory.low"
          (FormatInt res.MemoryReservation)) done := by
  simp [linuxMemHandler.Apply, hv2, hconv, FormatInt_ne_empty]

theorem mem_unified_swap_max_writes (w : World) (ctr : CgroupControl) (res : Resources)
    (swap : Int) (hv2 : ctr.cgroup2 = true)
    (hconv : ConvertMemorySwapToCgroupV2Value res.MemorySwap res.Memory = .ok swap) :
    writesTo "memory.swap.max" (linuxMemHandler.Apply w ctr res).1 = [FormatInt swap] := by
  rw [mem_unified_apply w ctr res swap hv2 hconv, writesTo_andThen]
  · simp [writesTo]
  · intro t1
    rw [writesTo_andThen]
    · simp [writesTo]
    · intro t2
      simp [writesTo]

theorem convert_swap_allowance (m s : Int) (hm : 0 < m) (hs : m ≤ s) :
    ConvertMemorySwapToCgroupV2Value s m = .ok (s - m) := by
  have h1 : ¬ (m = -1 ∧ s = 0) := by omega
  have h2 : ¬ (s = -1 ∨ s = 0) := by omega
  have h3 : ¬ (m = 0 ∨ m = -1) := by omega
  have h4 : ¬ m < 0 := by omega
  have h5 : ¬ s < m := by omega
  simp [ConvertMemorySwapToCgroupV2Value, h1, h2, h3, h4, h5]

/-- C13: on the unified hierarchy, for a request with `0 < Memory = m` and
`MemorySwap = s ≥ m`, the one value `linuxMemHandler.Apply` writes to
`memory.swap.max` is the decimal rendering of `s - m`; that write is its
first operation, so it precedes any write to `memory.max`; and when it is
accepted the next operation is the write of the decimal `m` to
`memory.max`. -/
theorem mem_unified_swap_allowance (w : World) (ctr : CgroupControl) (res : Resources)
    (hv2 : ctr.cgroup2 = true) (hm : 0 < res.Memory) (hs : res.Memory ≤ res.MemorySwap) :
    writesTo "memory.swap.max" (linuxMemHandler.Apply w ctr res).1
        = [FormatInt (res.MemorySwap - res.Memory)] ∧
    (∃ rest, (linuxMemHandler.Apply w ctr res).1
        = Event.write (CgPath.unified ctr.config.Path) "memory.swap.max"
            (FormatInt (res.MemorySwap - res.Memory)) :: rest) ∧
    (w.write [] (CgPath.unified ctr.config.Path) "memory.swap.max"
        (FormatInt (res.MemorySwap - res.Memory)) = none →
      ∃ rest, (linuxMemHandler.Apply w ctr res).1
        = Event.write (CgPath.unified ctr.config.Path) "memory.swap.max"
            (FormatInt (res.MemorySwap - res.Memory)) ::
          Event.write (CgPath.unified ctr.config.Path) "memory.max"
            (FormatInt res.Memory) :: rest) := by
  have hconv := convert_swap_allowance res.Memory res.MemorySwap hm hs
  have happly := mem_unified_apply w ctr res _ hv2 hconv
  refine ⟨mem_unified_swap_max_writes w ctr res _ hv2 hconv, ?_, ?_⟩
  · rw [happly]
    cases h1 : w.write [] (CgPath.unified ctr.config.Path) "memory.swap.max"
        (FormatInt (res.MemorySwap - res.Memory)) with
    | some e => exact ⟨[], by simp [WriteFile, h1]⟩
    | none =>
      cases h2 : w.write
          [Event.write (CgPath.unified ctr.config.Path) "memory.swap.max"
            (FormatInt (res.MemorySwap - res.Memory))]
          (CgPath.unified ctr.config.Path) "memory.max" (FormatInt res.Memory) with
      | some e => exact ⟨_, by simp [WriteFile, h1, h2]; rfl⟩
      | none => exact ⟨_, by simp [WriteFile, h1, h2]; rfl⟩
  · intro h1
    rw [happly]
    cases h2 : w.write
        [Event.write (CgPath.unified ctr.config.Path) "memory.swap.max"
          (FormatInt (res.MemorySwap - res.Memory))]
        (CgPath.unified ctr.config.Path) "memory.max" (FormatInt res.Memory) with
    | some e => exact ⟨[], by simp [WriteFile, h1, h2]⟩
    | none => exact ⟨_, by simp [WriteFile, h1, h2]; rfl⟩

/-- Witness for C13: memory 100 MiB, memory plus swap 150 MiB. -/
theorem mem_unified_swap_allowance_witness :
    writesTo "memory.swap.max"
        (linuxMemHandler.Apply (World.accepting "0" 0 []) sampleUnified
          { Resources.zero with Memory := 104857600, MemorySwap := 157286400 }).1
      = [FormatInt (157286400 - 104857600)] :=
  (mem_unified_swap_allowance (World.accepting "0" 0 []) sampleUnified
    { Resources.zero with Memory := 104857600, MemorySwap := 157286400 } rfl
    (by decide) (by decide)).1

/-- C14: for `Memory = -1` with `MemorySwap = 0`, and for `MemorySwap = -1`,
the swap conversion yields the unlimited sentinel -1 and
`linuxMemHandler.Apply` writes the number "-1" to `memory.swap.max` on the
unified hierarchy, not a token such as "unlimited": the decimal formatter in
use has no special case for the sentinel. -/
theorem mem_unified_unlimited_swap_not_token :
    ConvertMemorySwapToCgroupV2Value 0 (-1) = .ok (-1) ∧
    writesTo "memory.swap.max"
        (linuxMemHandler.Apply (World.accepting "0" 0 []) sampleUnified
          { Resources.zero with Memory := -1 }).1 = ["-1"] ∧
    writesTo "memory.swap.max"
        (linuxMemHandler.Apply (World.accepting "0" 0 []) sampleUnified
          { Resources.zero with Memory := -1 }).1 ≠ ["unlimited"] ∧
    ConvertMemorySwapToCgroupV2Value (-1) 0 = .ok (-1) ∧
    writesTo "memory.swap.max"
        (linuxMemHandler.Apply (World.accepting "0" 0 []) sampleUnified
          { Resources.zero with MemorySwap := -1 }).1 = ["-1"] := by
  decide

/-- C15: for the all-zero request on the unified hierarchy
`linuxMemHandler.Apply` writes "0" to `memory.swap.max`, to `memory.max`
and to `memory.low`: the guards compare the formatted value with the empty
string, which the decimal formatter never returns. -/
theorem mem_unified_zero_fields_written :
    linuxMemHandler.Apply (World.accepting "0" 0 []) sampleUnified Resources.zero
      = ([Event.write (CgPath.unified "machine.slice/pod") "memory.swap.max" "0",
          Event.write (CgPath.unified "machine.slice/pod") "memory.max" "0",
          Event.write (CgPath.unified "machine.slice/pod") "memory.low" "0"], none) := by
  decide

/-! ## Swappiness and OOM control on the legacy hierarchy -/

/-- C16: on the legacy hierarchy, for memory 100 MiB, swap -1 and
swappiness 200, with every read and write succeeding,
`linuxMemHandler.Apply` takes the swap-first branch, writes the two limits
and returns `nil`: the swappiness is not validated. -/
theorem mem_legacy_swappiness_not_validated :
    linuxMemHandler.Apply (World.accepting "0\n" 0 []) sampleLegacy
        { Resources.zero with
          Memory := 104857600, MemorySwap := -1,
          MemorySwappiness := some ⟨824633802904, 200⟩ }
      = ([Event.read (CgPath.legacy Controller.Memory "machine.slice/pod")
            "memory.limit_in_bytes",
          Event.write (CgPath.legacy Controller.Memory "machine.slice/pod")
            "memory.memsw.limit_in_bytes" "-1",
          Event.write (CgPath.legacy Controller.Memory "machine.slice/pod")
            "memory.limit_in_bytes" "104857600"], none) := by
  decide

/-- C17: on the legacy hierarchy, for memory 100 MiB, swap -1 and
`OomKillDisable = true`, with every read and write succeeding,
`linuxMemHandler.Apply` takes the swap-first branch, writes the two limits
and returns `nil` without a write to `memory.oom_control`. -/
theorem mem_legacy_oom_control_not_written :
    linuxMemHandler.Apply (World.accepting "0\n" 0 []) sampleLegacy
        { Resources.zero with
          Memory := 104857600, MemorySwap := -1, OomKillDisable := true }
      = ([Event.read (CgPath.legacy Controller.Memory "machine.slice/pod")
            "memory.limit_in_bytes",
          Event.write (CgPath.legacy Controller.Memory "machine.slice/pod")
            "memory.memsw.limit_in_bytes" "-1",
          Event.write (CgPath.legacy Controller.Memory "machine.slice/pod")
            "memory.limit_in_bytes" "104857600"], none) := by
  decide

/-- On the unified hierarchy `linuxMemHandler.Apply` does not read
`OomKillDisable`: requests that differ only in that flag have the same
outcome. -/
theorem mem_unified_ignores_oom (w : World) (ctr : CgroupControl) (res : Resources)
    (flag : Bool) (hv2 : ctr.cgroup2 = true) :
    linuxMemHandler.Apply w ctr { res with OomKillDisable := flag }
      = linuxMemHandler.Apply w ctr res := by
  simp [linuxMemHandler.Apply, hv2]

/-! ## Block-I/O statistics on the legacy hierarchy -/

theorem statLines_cons (line : String) (lines : List String) (acc : List BlkioStatEntry) :
    statLines (line :: lines) acc
      = match readStatLine line with
        | .skipped => statLines lines acc
        | .entry e => statLines lines (acc ++ [e])
        | .failed err => .error err := by
  unfold readStatLine
  rw [statLines]
  split
  · split
    · split
      · rfl
      · split
        · rfl
        · split <;> rfl
    · rfl
  · rfl

theorem statLines_ok (lines : List String) :
    ∀ acc : List BlkioStatEntry,
      (∀ line ∈ lines, (readStatLine line).isFailed = false) →
      statLines lines acc
        = .ok (acc ++ lines.filterMap fun line => (readStatLine line).entry?) := by
  induction lines with
  | nil => intro acc _; simp [statLines]
  | cons line lines ih =>
    intro acc h
    have hrest : ∀ l ∈ lines, (readStatLine l).isFailed = false :=
      fun l hl => h l (List.mem_cons_of_mem _ hl)
    have hline := h line (List.mem_cons_self _ _)
    rw [statLines_cons]
    cases hr : readStatLine line with
    | skipped => simp [ih acc hrest, hr, LineReading.entry?]
    | entry e => simp [ih (acc ++ [e]) hrest, hr, LineReading.entry?]
    | failed err => simp [hr, LineReading.isFailed] at hline

theorem statLines_failed (lines : List String) :
    ∀ acc : List BlkioStatEntry,
      (∃ line ∈ lines, (readStatLine line).isFailed = true) →
      ∃ err, statLines lines acc = .error err := by
  induction lines with
  | nil => intro acc h; simp at h
  | cons line lines ih =>
    intro acc h
    rw [statLines_cons]
    cases hr : readStatLine line with
    | failed err => exact ⟨err, rfl⟩
    | skipped =>
      obtain ⟨l, hl, he⟩ := h
      rcases List.mem_cons.mp hl with rfl | hl
      · simp [hr, LineReading.isFailed] at he
      · exact ih acc ⟨l, hl, he⟩
    | entry e =>
      obtain ⟨l, hl, he⟩ := h
      rcases List.mem_cons.mp hl with rfl | hl
      · simp [hr, LineReading.isFailed] at he
      · exact ih (acc ++ [e]) ⟨l, hl, he⟩

/-- C18, as stated, fails on a line with a non-numeric value: for the lines
"8:0 Read 100" and "8:0 Write abc" the legacy branch of
`linuxBlkioHandler.Stat` returns the parse error and leaves the metrics
unchanged; it does not skip the second line. -/
theorem blkio_stat_legacy_bad_value_fails :
    linuxBlkioHandler.Stat (World.withLines ["8:0 Read 100", "8:0 Write abc"])
        sampleLegacy Stats.zero
      = (Stats.zero, some (.text "strconv.ParseUint: invalid syntax")) := by
  decide

/-- C18, amended: in the legacy branch of `linuxBlkioHandler.Stat`, when the
file scans to `lines` without a scanner error: a line with fewer than three
fields, or whose device field does not split at ":" into exactly two parts,
is skipped; a line with three fields and a two-part device field whose value
is not an unsigned decimal number makes the reading fail, and so does one
whose device parts are not; if no line fails, Stat returns `nil` and the
entries are exactly those of the lines that give one, in file order; if a
line fails, Stat returns an error and leaves the metrics unchanged. -/
theorem blkio_stat_legacy_lines (w : World) (ctr : CgroupControl) (m : Stats)
    (lines : List String) (hleg : ctr.cgroup2 = false)
    (hscan : w.scanFile (CgPath.legacy Controller.Blkio ctr.config.Path)
      "blkio.throttle.io_service_bytes_recursive" = .ok (lines, none)) :
    ((∀ line ∈ lines, (readStatLine line).isFailed = false) →
      linuxBlkioHandler.Stat w ctr m
        = ({ m with BlkioStats := ⟨lines.filterMap fun line => (readStatLine line).entry?⟩ },
            none)) ∧
    ((∃ line ∈ lines, (readStatLine line).isFailed = true) →
      ∃ err, linuxBlkioHandler.Stat w ctr m = (m, some err)) ∧
    (∀ line, (Fields line).length < 3 → readStatLine line = .skipped) ∧
    (∀ line p0 p1 p2 rest, Fields line = p0 :: p1 :: p2 :: rest →
      (Split p0 ':').length ≠ 2 → readStatLine line = .skipped) ∧
    (∀ line p0 p1 p2 rest d0 d1, Fields line = p0 :: p1 :: p2 :: rest →
      Split p0 ':' = [d0, d1] →
      ((∃ err, ParseUint d0 = .error err) ∨ (∃ err, ParseUint d1 = .error err) ∨
        (∃ err, ParseUint p2 = .error err)) →
      (readStatLine line).isFailed = true) ∧
    (∀ line p0 p1 p2 rest d0 d1 minor major value, Fields line = p0 :: p1 :: p2 :: rest →
      Split p0 ':' = [d0, d1] → ParseUint d0 = .ok minor → ParseUint d1 = .ok major →
      ParseUint p2 = .ok value →
      readStatLine line = .entry ⟨major, minor, p1, value⟩) := by
  refine ⟨?_, ?_, ?_, ?_, ?_, ?_⟩
  · intro h
    simp [linuxBlkioHandler.Stat, hleg, hscan, statLines_ok lines [] h]
  · intro h
    obtain ⟨err, he⟩ := statLines_failed lines [] h
    exact ⟨err, by simp [linuxBlkioHandler.Stat, hleg, hscan, he]⟩
  · intro line hlen
    unfold readStatLine
    split
    · rename_i heq
      rw [heq] at hlen
      simp only [List.length_cons] at hlen
      omega
    · rfl
  · intro line p0 p1 p2 rest hf hsplit
    unfold readStatLine
    rw [hf]
    simp only
    split
    · rename_i heq
      rw [heq] at hsplit
      simp at hsplit
    · rfl
  · intro line p0 p1 p2 rest d0 d1 hf hsplit hbad
    unfold readStatLine
    rw [hf]
    simp only [hsplit]
    rcases hbad with ⟨e, he⟩ | ⟨e, he⟩ | ⟨e, he⟩
    · rw [he]; rfl
    · cases h0 : ParseUint d0 with
      | error e0 => rfl
      | ok v0 => rw [he]; rfl
    · cases h0 : ParseUint d0 with
      | error e0 => rfl
      | ok v0 =>
        cases h1 : ParseUint d1 with
        | error e1 => rfl
        | ok v1 => rw [he]; rfl
  · intro line p0 p1 p2 rest d0 d1 minor major value hf hsplit h0 h1 h2
    unfold readStatLine
    rw [hf]
    simp only [hsplit, h0, h1, h2]

/-- Witness for the amended C18: a short line and a line without a device
pair are skipped, the two remaining lines give the entries. -/
theorem blkio_stat_legacy_lines_witness :
    linuxBlkioHandler.Stat
        (World.withLines ["8:0 Read 100", "Total", "sda Write 7", "8:16 Write 300"])
        sampleLegacy Stats.zero
      = ({ Stats.zero with
            BlkioStats := ⟨[⟨0, 8, "Read", 100⟩, ⟨16, 8, "Write", 300⟩]⟩ }, none) :=
  ((blkio_stat_legacy_lines
    (World.withLines ["8:0 Read 100", "Total", "sda Write 7", "8:16 Write 300"])
    sampleLegacy Stats.zero ["8:0 Read 100", "Total", "sda Write 7", "8:16 Write 300"]
    rfl rfl).1 (by decide)).trans (by decide)

/-! ## CPU statistics on the legacy hierarchy -/

/-- C19: in the legacy branch of `linuxCpuHandler.Stat`, when each of the
three reads (`cpuacct.usage`, `cpuacct.usage_sys`, `cpuacct.usage_percpu`)
either succeeds or fails with a not-exist error, Stat returns `nil` and each
field holds the value read from its file, or its zero value (0, 0, the empty
list) where the file does not exist; a read that fails with any other error,
the reads before it being of the first kind, makes Stat return that error
and leave the metrics record unchanged. -/
theorem cpu_stat_legacy_absent_files (w : World) (ctr : CgroupControl) (m : Stats)
    (hleg : ctr.cgroup2 = false) :
    ((∀ e, w.readAcct ctr "cpuacct.usage" = .error e →
        os_IsNotExist (errors_Cause e) = true) →
      (∀ e, w.readAcct ctr "cpuacct.usage_sys" = .error e →
        os_IsNotExist (errors_Cause e) = true) →
      (∀ e, w.readAcctList ctr "cpuacct.usage_percpu" = .error e →
        os_IsNotExist (errors_Cause e) = true) →
      linuxCpuHandler.Stat w ctr m
        = some ({ m with CpuStats :=
            ⟨⟨(w.readAcct ctr "cpuacct.usage").toOption.getD 0,
              (w.readAcct ctr "cpuacct.usage_sys").toOption.getD 0,
              (w.readAcctList ctr "cpuacct.usage_percpu").toOption.getD []⟩⟩ }, none)) ∧
    (∀ e, w.readAcct ctr "cpuacct.usage" = .error e →
      os_IsNotExist (errors_Cause e) = false →
      linuxCpuHandler.Stat w ctr m = some (m, some e)) ∧
    (∀ e,
      (∀ e0, w.readAcct ctr "cpuacct.usage" = .error e0 →
        os_IsNotExist (errors_Cause e0) = true) →
      w.readAcct ctr "cpuacct.usage_sys" = .error e →
      os_IsNotExist (errors_Cause e) = false →
      linuxCpuHandler.Stat w ctr m = some (m, some e)) ∧
    (∀ e,
      (∀ e0, w.readAcct ctr "cpuacct.usage" = .error e0 →
        os_IsNotExist (errors_Cause e0) = true) →
      (∀ e1, w.readAcct ctr "cpuacct.usage_sys" = .error e1 →
        os_IsNotExist (errors_Cause e1) = true) →
      w.readAcctList ctr "cpuacct.usage_percpu" = .error e →
      os_IsNotExist (errors_Cause e) = false →
      linuxCpuHandler.Stat w ctr m = some (m, some e)) := by
  refine ⟨?_, ?_, ?_, ?_⟩
  · intro ha hb hc
    cases a : w.readAcct ctr "cpuacct.usage" with
    | error ea =>
      cases b : w.readAcct ctr "cpuacct.usage_sys" with
      | error eb =>
        cases c : w.readAcctList ctr "cpuacct.usage_percpu" with
        | error ec =>
          simp [linuxCpuHandler.Stat, cpuStatLegacySys, cpuStatLegacyPercpu, hleg, a, b, c,
            ha ea a, hb eb b, hc ec c, Except.toOption]
        | ok vc =>
          simp [linuxCpuHandler.Stat, cpuStatLegacySys, cpuStatLegacyPercpu, hleg, a, b, c,
            ha ea a, hb eb b, Except.toOption]
      | ok vb =>
        cases c : w.readAcctList ctr "cpuacct.usage_percpu" with
        | error ec =>
          simp [linuxCpuHandler.Stat, cpuStatLegacySys, cpuStatLegacyPercpu, hleg, a, b, c,
            ha ea a, hc ec c, Except.toOption]
        | ok vc =>
          simp [linuxCpuHandler.Stat, cpuStatLegacySys, cpuStatLegacyPercpu, hleg, a, b, c,
            ha ea a, Except.toOption]
    | ok va =>
      cases b : w.readAcct ctr "cpuacct.usage_sys" with
      | error eb =>
        cases c : w.readAcctList ctr "cpuacct.usage_percpu" with
        | error ec =>
          simp [linuxCpuHandler.Stat, cpuStatLegacySys, cpuStatLegacyPercpu, hleg, a, b, c,
            hb eb b, hc ec c, Except.toOption]
        | ok vc =>
          simp [linuxCpuHandler.Stat, cpuStatLegacySys, cpuStatLegacyPercpu, hleg, a, b, c,
            hb eb b, Except.toOption]
      | ok vb =>
        cases c : w.readAcctList ctr "cpuacct.usage_percpu" with
        | error ec =>
          simp [linuxCpuHandler.Stat, cpuStatLegacySys, cpuStatLegacyPercpu, hleg, a, b, c,
            hc ec c, Except.toOption]
        | ok vc =>
          simp [linuxCpuHandler.Stat, cpuStatLegacySys, cpuStatLegacyPercpu, hleg, a, b, c,
            Except.toOption]
  · intro e a hne
    simp [linuxCpuHandler.Stat, hleg, a, hne]
  · intro e ha b hne
    cases a : w.readAcct ctr "cpuacct.usage" with
    | error ea => simp [linuxCpuHandler.Stat, cpuStatLegacySys, hleg, a, b, ha ea a, hne]
    | ok va => simp [linuxCpuHandler.Stat, cpuStatLegacySys, hleg, a, b, hne]
  · intro e ha hb c hne
    cases a : w.readAcct ctr "cpuacct.usage" with
    | error ea =>
      cases b : w.readAcct ctr "cpuacct.usage_sys" with
      | error eb =>
        simp [linuxCpuHandler.Stat, cpuStatLegacySys, cpuStatLegacyPercpu, hleg, a, b, c,
          ha ea a, hb eb b, hne]
      | ok vb =>
        simp [linuxCpuHandler.Stat, cpuStatLegacySys, cpuStatLegacyPercpu, hleg, a, b, c,
          ha ea a, hne]
    | ok va =>
      cases b : w.readAcct ctr "cpuacct.usage_sys" with
      | error eb =>
        simp [linuxCpuHandler.Stat, cpuStatLegacySys, cpuStatLegacyPercpu, hleg, a, b, c,
          hb eb b, hne]
      | ok vb =>
        simp [linuxCpuHandler.Stat, cpuStatLegacySys, cpuStatLegacyPercpu, hleg, a, b, c, hne]

/-- Witness for C19: `cpuacct.usage` does not exist, the other two files
hold 7 and the list 1, 2. -/
theorem cpu_stat_legacy_absent_files_witness :
    linuxCpuHandler.Stat
        (World.withAcct (.error (.wrapf "open cpuacct.usage" (.errno ENOENT))) (.ok 7)
          (.ok [1, 2]))
        sampleLegacy Stats.zero
      = some ({ Stats.zero with CpuStats := ⟨⟨0, 7, [1, 2]⟩⟩ }, none) :=
  (cpu_stat_legacy_absent_files
    (World.withAcct (.error (.wrapf "open cpuacct.usage" (.errno ENOENT))) (.ok 7)
      (.ok [1, 2]))
    sampleLegacy Stats.zero rfl).1
    (fun e h => by cases h; rfl) (fun e h => by cases h) (fun e h => by cases h)

/-! ## Systemd delegation -/

theorem resourcesToProps_uMap_names (res : Resources) :
    ∀ kv ∈ (resourcesToProps res).1, kv.1 ≠ "Delegate" := by
  unfold resourcesToProps
  by_cases h1 : res.CpuPeriod ≠ 0 <;> by_cases h2 : res.CpuQuota ≠ 0 <;>
    by_cases h3 : res.BlkioWeight > 0 <;> simp [mapSet, h1, h2, h3]

theorem resourcesToProps_bMap_names (res : Resources) :
    ∀ kv ∈ (resourcesToProps res).2.2.1, kv.1 ≠ "Delegate" := by
  unfold resourcesToProps
  by_cases h1 : res.CpusetCpus ≠ "" <;> by_cases h2 : res.CpusetMems ≠ "" <;>
    simp [mapSet, h1, h2]

theorem resourcesToProps_iMap_names (res : Resources) :
    ∀ kv ∈ (resourcesToProps res).2.2.2, kv.1 ≠ "Delegate" := by
  unfold resourcesToProps
  by_cases h1 : res.Memory ≠ 0 <;> by_cases h2 : res.MemorySwap ≠ 0 <;>
    simp [mapSet, h1, h2]

theorem resourcesToProps_sMap (res : Resources) : (resourcesToProps res).2.1 = [] := rfl

/-- Filtering out the property `Delegate` leaves a visited map as it is, up
to order, when no entry has that name. -/
theorem filter_rangeOrder (c : Conn) (n : Nat) (l : List Property)
    (h : ∀ p ∈ l, p.Name ≠ "Delegate") :
    ((c.rangeOrder n l).filter fun p => p.Name ≠ "Delegate").Perm l := by
  have h1 := List.Perm.filter (fun p : Property => decide (p.Name ≠ "Delegate"))
    (c.rangeOrder_perm n l)
  have h2 : l.filter (fun p : Property => decide (p.Name ≠ "Delegate")) = l :=
    List.filter_eq_self.mpr fun p hp => by simpa using h p hp
  rw [h2] at h1
  exact h1

theorem systemdProperties_retry (c : Conn) (res : Resources) (slice name : String) :
    (systemdProperties c res slice name 1).Perm
      ((systemdProperties c res slice name 0).filter fun p => p.Name ≠ "Delegate") := by
  have hu : ∀ p ∈ (resourcesToProps res).1.map (fun kv => (⟨kv.1, .uint64 kv.2⟩ : Property)),
      p.Name ≠ "Delegate" := by
    intro p hp
    obtain ⟨kv, hkv, rfl⟩ := List.mem_map.mp hp
    exact resourcesToProps_uMap_names res kv hkv
  have hs : ∀ p ∈ (resourcesToProps res).2.1.map (fun kv => (⟨kv.1, .str kv.2⟩ : Property)),
      p.Name ≠ "Delegate" := by
    intro p hp
    simp [resourcesToProps_sMap] at hp
  have hb : ∀ p ∈ (resourcesToProps res).2.2.1.map
      (fun kv => (⟨kv.1, .bytes kv.2⟩ : Property)), p.Name ≠ "Delegate" := by
    intro p hp
    obtain ⟨kv, hkv, rfl⟩ := List.mem_map.mp hp
    exact resourcesToProps_bMap_names res kv hkv
  have hi : ∀ p ∈ (resourcesToProps res).2.2.2.map
      (fun kv => (⟨kv.1, .int64 kv.2⟩ : Property)), p.Name ≠ "Delegate" := by
    intro p hp
    obtain ⟨kv, hkv, rfl⟩ := List.mem_map.mp hp
    exact resourcesToProps_iMap_names res kv hkv
  have hp0 := List.Perm.filter (fun p : Property => decide (p.Name ≠ "Delegate"))
    (c.rangeOrder_perm 0
      [⟨"DefaultDependencies", .bool false⟩, ⟨"MemoryAccounting", .bool true⟩,
        ⟨"CPUAccounting", .bool true⟩, ⟨"BlockIOAccounting", .bool true⟩,
        ⟨"Delegate", .bool true⟩])
  have hp0f : ([⟨"DefaultDependencies", .bool false⟩, ⟨"MemoryAccounting", .bool true⟩,
        ⟨"CPUAccounting", .bool true⟩, ⟨"BlockIOAccounting", .bool true⟩,
        ⟨"Delegate", .bool true⟩] : List Property).filter
          (fun p : Property => decide (p.Name ≠ "Delegate"))
      = [⟨"DefaultDependencies", .bool false⟩, ⟨"MemoryAccounting", .bool true⟩,
        ⟨"CPUAccounting", .bool true⟩, ⟨"BlockIOAccounting", .bool true⟩] := by
    decide
  rw [hp0f] at hp0
  simp only [systemdProperties, mapSet, List.filter_append]
  refine List.Perm.append (List.Perm.append (List.Perm.append (List.Perm.append
    (List.Perm.append ?_ ?_) ?_) ?_) ?_) ?_
  · simp [PropDescription, PropWants]
  · refine (c.rangeOrder_perm _ _).trans ?_
    simpa using hp0.symm
  · exact (c.rangeOrder_perm _ _).trans (filter_rangeOrder c _ _ hu).symm
  · exact (c.rangeOrder_perm _ _).trans (filter_rangeOrder c _ _ hs).symm
  · exact (c.rangeOrder_perm _ _).trans (filter_rangeOrder c _ _ hb).symm
  · exact (c.rangeOrder_perm _ _).trans (filter_rangeOrder c _ _ hi).symm

/-- C20: `systemdCreate` issues at most two transient-unit calls; the first
carries `Delegate=true`; the second call has the same unit name and mode and
the same properties without `Delegate` (map entries may be listed in another
order); if the first call succeeds it is the only call and `nil` is
returned; if it fails the second call is issued, and `systemdCreate` returns
`nil` when that one succeeds and its error when it fails. -/
theorem systemd_create_retry (c : Conn) (res : Resources) (path : String) :
    (systemdCreate c res path).1.length ≤ 2 ∧
    (⟨"Delegate", .bool true⟩ : Property) ∈ (systemdCall c res path 0).properties ∧
    (∀ p ∈ (systemdCall c res path 1).properties, p.Name ≠ "Delegate") ∧
    (systemdCall c res path 1).name = (systemdCall c res path 0).name ∧
    (systemdCall c res path 1).mode = (systemdCall c res path 0).mode ∧
    (systemdCall c res path 1).properties.Perm
      ((systemdCall c res path 0).properties.filter fun p => p.Name ≠ "Delegate") ∧
    (c.StartTransientUnit [] (systemdCall c res path 0) = none →
      systemdCreate c res path = ([systemdCall c res path 0], none)) ∧
    (∀ e1, c.StartTransientUnit [] (systemdCall c res path 0) = some e1 →
      (systemdCreate c res path).1 = [systemdCall c res path 0, systemdCall c res path 1] ∧
      (c.StartTransientUnit [systemdCall c res path 0] (systemdCall c res path 1) = none →
        (systemdCreate c res path).2 = none) ∧
      (∀ e2,
        c.StartTransientUnit [systemdCall c res path 0] (systemdCall c res path 1) = some e2 →
        (systemdCreate c res path).2 = some e2)) := by
  have hperm := systemdProperties_retry c res
    (TrimSuffix (filepath.Split path).1 "/") (filepath.Split path).2
  refine ⟨?_, ?_, ?_, rfl, rfl, hperm, ?_, ?_⟩
  · unfold systemdCreate
    cases h1 : c.StartTransientUnit [] (systemdCall c res path 0) with
    | none => simp [systemdCreateLoop, h1]
    | some e1 =>
      cases h2 : c.StartTransientUnit [systemdCall c res path 0]
          (systemdCall c res path 1) with
      | none => simp [systemdCreateLoop, h1, h2]
      | some e2 => simp [systemdCreateLoop, h1, h2]
  · have hmem : (⟨"Delegate", .bool true⟩ : Property) ∈
        c.rangeOrder 0
          [⟨"DefaultDependencies", .bool false⟩, ⟨"MemoryAccounting", .bool true⟩,
            ⟨"CPUAccounting", .bool true⟩, ⟨"BlockIOAccounting", .bool true⟩,
            ⟨"Delegate", .bool true⟩] :=
      (c.rangeOrder_perm 0 _).mem_iff.mpr (by simp)
    simp only [systemdCall, systemdProperties, mapSet]
    simp only [List.mem_append]
    exact Or.inl (Or.inl (Or.inl (Or.inl (Or.inr (by simpa using hmem)))))
  · intro p hp
    have := (hperm.mem_iff).mp hp
    simpa using (List.mem_filter.mp this).2
  · intro h1
    simp [systemdCreate, systemdCreateLoop, h1]
  · intro e1 h1
    refine ⟨?_, ?_, ?_⟩
    · cases h2 : c.StartTransientUnit [systemdCall c res path 0]
          (systemdCall c res path 1) with
      | none => simp [systemdCreate, systemdCreateLoop, h1, h2]
      | some e2 => simp [systemdCreate, systemdCreateLoop, h1, h2]
    · intro h2
      simp [systemdCreate, systemdCreateLoop, h1, h2]
    · intro e2 h2
      simp [systemdCreate, systemdCreateLoop, h1, h2]

/-- Witness for C20: the first call is rejected, the second accepted. -/
theorem systemd_create_retry_witness :
    (systemdCreate (Conn.failing 1 13) Resources.zero "machine.slice/pod").1
        = [systemdCall (Conn.failing 1 13) Resources.zero "machine.slice/pod" 0,
           systemdCall (Conn.failing 1 13) Resources.zero "machine.slice/pod" 1] ∧
    (systemdCreate (Conn.failing 1 13) Resources.zero "machine.slice/pod").2 = none :=
  ⟨((systemd_create_retry (Conn.failing 1 13) Resources.zero
      "machine.slice/pod").2.2.2.2.2.2.2 (.errno 13) rfl).1,
   ((systemd_create_retry (Conn.failing 1 13) Resources.zero
      "machine.slice/pod").2.2.2.2.2.2.2 (.errno 13) rfl).2.1 rfl⟩

/-! ## Leaf weight and small weights on the unified block-I/O hierarchy -/

/-- C23: on the unified hierarchy `linuxBlkioHandler.Apply` does not read
`BlkioLeafWeight`: a request and the same request with any other leaf weight
(in particular with none) have the same trace of operations and the same
returned error, so a leaf weight never makes it fail. -/
theorem blkio_unified_ignores_leaf_weight (w : World) (ctr : CgroupControl)
    (res : Resources) (leaf : Nat) (hv2 : ctr.cgroup2 = true) :
    linuxBlkioHandler.Apply w ctr { res with BlkioLeafWeight := leaf }
      = linuxBlkioHandler.Apply w ctr res := by
  simp [linuxBlkioHandler.Apply, hv2, blkioUnifiedWeight, blkioUnifiedThrottle]

/-- Witness for C23: a leaf weight of 500 next to a weight of 100. -/
theorem blkio_unified_ignores_leaf_weight_witness :
    linuxBlkioHandler.Apply World.noBfq sampleUnified
        { { Resources.zero with BlkioWeight := 100 } with BlkioLeafWeight := 500 }
      = linuxBlkioHandler.Apply World.noBfq sampleUnified
          { Resources.zero with BlkioWeight := 100 } :=
  blkio_unified_ignores_leaf_weight World.noBfq sampleUnified
    { Resources.zero with BlkioWeight := 100 } 500 rfl

theorem blkioWeightRescale_wrap (wt : Nat) (hlo : 1 ≤ wt) (hhi : wt ≤ 9) :
    blkioWeightRescale wt = 1 + (2 ^ 64 - 9999 * (10 - wt)) / 990 := by
  interval_cases wt <;> decide

/-- C26: on the unified hierarchy without `io.bfq.weight`, for a weight
`1 ≤ w ≤ 9` the subtraction `w - 10` wraps around in `uint64`, and the only
string `linuxBlkioHandler.Apply` writes to `io.weight` is the decimal
rendering of `1 + (2 ^ 64 - 9999 * (10 - w)) / 990`, a value above 10000. -/
theorem blkio_unified_weight_wraps (w : World) (ctr : CgroupControl) (res : Resources)
    (err : Error) (hv2 : ctr.cgroup2 = true)
    (hopen : w.openFile [] (CgPath.unified ctr.config.Path) "io.bfq.weight" = some err)
    (hne : os_IsNotExist err = true)
    (hlo : 1 ≤ res.BlkioWeight) (hhi : res.BlkioWeight ≤ 9) :
    writesTo "io.weight" (linuxBlkioHandler.Apply w ctr res).1
        = [FormatUint (1 + (2 ^ 64 - 9999 * (10 - res.BlkioWeight)) / 990)] ∧
    10000 < 1 + (2 ^ 64 - 9999 * (10 - res.BlkioWeight)) / 990 ∧
    (res.BlkioWeight + 2 ^ 64 - 10) % 2 ^ 64 = 2 ^ 64 - (10 - res.BlkioWeight) := by
  have hmain := blkio_io_weight_writes w ctr res err hv2 hopen hne (by omega)
  rw [blkioWeightRescale_wrap _ hlo hhi] at hmain
  refine ⟨hmain, ?_, ?_⟩
  · generalize res.BlkioWeight = wt at hlo hhi
    interval_cases wt <;> decide
  · generalize res.BlkioWeight = wt at hlo hhi
    interval_cases wt <;> decide

/-- Witness for C26 at weight 5. -/
theorem blkio_unified_weight_wraps_witness :
    writesTo "io.weight"
        (linuxBlkioHandler.Apply World.noBfq sampleUnified
          { Resources.zero with BlkioWeight := 5 }).1
      = [FormatUint (1 + (2 ^ 64 - 9999 * (10 - 5)) / 990)] :=
  (blkio_unified_weight_wraps World.noBfq sampleUnified
    { Resources.zero with BlkioWeight := 5 } (.errno ENOENT) rfl rfl rfl
    (by decide) (by decide)).1

/-! ## The memory limit files on the legacy hierarchy -/

theorem writesTo_memLegacyRest (w : World) (path : CgPath) (res : Resources) (name : String)
    (h1 : "memory.soft_limit_in_bytes" ≠ name) (h2 : "memory.oom_control" ≠ name)
    (h3 : "memory.swappiness" ≠ name) (tr : Trace) :
    writesTo name (memLegacyRest w path res tr).1 = writesTo name tr := by
  unfold memLegacyRest
  rw [writesTo_andThen]
  · split
    · simp [writesTo, h1]
    · rfl
  · intro t1
    rw [writesTo_andThen]
    · split
      · simp [writesTo, h2]
      · rfl
    · intro t2
      split
      · rfl
      · split
        · rfl
        · split
          · simp [writesTo, h3]
          · rfl

/-- C27: on the legacy hierarchy, for a request with `MemorySwap = 0` and
`Memory` neither 0 nor -1, `linuxMemHandler.Apply` makes no write to
`memory.limit_in_bytes` and none to `memory.memsw.limit_in_bytes`. -/
theorem mem_legacy_limit_alone_not_written (w : World) (ctr : CgroupControl)
    (res : Resources) (hleg : ctr.cgroup2 = false) (hs : res.MemorySwap = 0)
    (_hm0 : res.Memory ≠ 0) (hm1 : res.Memory ≠ -1) :
    writesTo "memory.limit_in_bytes" (linuxMemHandler.Apply w ctr res).1 = [] ∧
    writesTo "memory.memsw.limit_in_bytes" (linuxMemHandler.Apply w ctr res).1 = [] := by
  have happly : linuxMemHandler.Apply w ctr res
      = memLegacyRest w (CgPath.legacy Controller.Memory ctr.config.Path) res [] := by
    simp [linuxMemHandler.Apply, hleg, hs, hm1]
  rw [happly]
  constructor
  · rw [writesTo_memLegacyRest _ _ _ _ (by decide) (by decide) (by decide)]
    rfl
  · rw [writesTo_memLegacyRest _ _ _ _ (by decide) (by decide) (by decide)]
    rfl

/-- Witness for C27: a memory limit of 100 MiB, a reservation and the OOM
flag, without a swap limit. -/
theorem mem_legacy_limit_alone_not_written_witness :
    writesTo "memory.limit_in_bytes"
        (linuxMemHandler.Apply (World.accepting "0\n" 0 []) sampleLegacy
          { Resources.zero with
            Memory := 104857600, MemoryReservation := 52428800, OomKillDisable := true }).1
      = [] :=
  (mem_legacy_limit_alone_not_written (World.accepting "0\n" 0 []) sampleLegacy
    { Resources.zero with
      Memory := 104857600, MemoryReservation := 52428800, OomKillDisable := true }
    rfl rfl (by decide) (by decide)).1

/-- C28: on the legacy hierarchy, when the swap-first branch is taken
(`Memory ≠ 0`, `MemorySwap ≠ 0`, and `MemorySwap = -1` or the current limit
`L` below `MemorySwap`) and both writes are accepted, `linuxMemHandler.Apply`
returns `nil` and its operations are exactly the read of the current limit,
the write of `memory.memsw.limit_in_bytes` and the write of
`memory.limit_in_bytes`: nothing is written to `memory.soft_limit_in_bytes`,
`memory.oom_control` or `memory.swappiness`, whatever `MemoryReservation`,
`OomKillDisable` and `MemorySwappiness` are. -/
theorem mem_legacy_swap_first_frame (w : World) (ctr : CgroupControl) (res : Resources)
    (s : String) (L : Nat) (hleg : ctr.cgroup2 = false)
    (hm : res.Memory ≠ 0) (hs : res.MemorySwap ≠ 0) (hint : res.MemorySwap < 2 ^ 63)
    (hread : w.read [] (CgPath.legacy Controller.Memory ctr.config.Path)
      "memory.limit_in_bytes" = .ok s)
    (hparse : ParseUint (TrimSpace s) = .ok L)
    (hcond : res.MemorySwap = -1 ∨ (L : Int) < res.MemorySwap)
    (hw1 : w.write [Event.read (CgPath.legacy Controller.Memory ctr.config.Path)
          "memory.limit_in_bytes"]
        (CgPath.legacy Controller.Memory ctr.config.Path) "memory.memsw.limit_in_bytes"
        (FormatInt res.MemorySwap) = none)
    (hw2 : w.write [Event.read (CgPath.legacy Controller.Memory ctr.config.Path)
          "memory.limit_in_bytes",
          Event.write (CgPath.legacy Controller.Memory ctr.config.Path)
            "memory.memsw.limit_in_bytes" (FormatInt res.MemorySwap)]
        (CgPath.legacy Controller.Memory ctr.config.Path) "memory.limit_in_bytes"
        (FormatInt res.Memory) = none) :
    linuxMemHandler.Apply w ctr res
        = ([Event.read (CgPath.legacy Controller.Memory ctr.config.Path)
              "memory.limit_in_bytes",
            Event.write (CgPath.legacy Controller.Memory ctr.config.Path)
              "memory.memsw.limit_in_bytes" (FormatInt res.MemorySwap),
            Event.write (CgPath.legacy Controller.Memory ctr.config.Path)
              "memory.limit_in_bytes" (FormatInt res.Memory)], none) ∧
    writes (linuxMemHandler.Apply w ctr res).1
        = [("memory.memsw.limit_in_bytes", FormatInt res.MemorySwap),
           ("memory.limit_in_bytes", FormatInt res.Memory)] ∧
    writesTo "memory.soft_limit_in_bytes" (linuxMemHandler.Apply w ctr res).1 = [] ∧
    writesTo "memory.oom_control" (linuxMemHandler.Apply w ctr res).1 = [] ∧
    writesTo "memory.swappiness" (linuxMemHandler.Apply w ctr res).1 = [] := by
  have hbranch : res.MemorySwap = -1 ∨ (L : Int) < res.MemorySwap % 18446744073709551616 := by
    rcases hcond with h | h
    · exact Or.inl h
    · right
      have hpos : 0 ≤ res.MemorySwap := by omega
      have hmod : res.MemorySwap % 18446744073709551616 = res.MemorySwap :=
        Int.emod_eq_of_lt hpos (by omega)
      rw [hmod]
      exact h
  have hprobe : ¬ (res.Memory = -1 ∧ res.MemorySwap = 0) := fun h => hs h.2
  have happly : linuxMemHandler.Apply w ctr res
      = ([Event.read (CgPath.legacy Controller.Memory ctr.config.Path)
            "memory.limit_in_bytes",
          Event.write (CgPath.legacy Controller.Memory ctr.config.Path)
            "memory.memsw.limit_in_bytes" (FormatInt res.MemorySwap),
          Event.write (CgPath.legacy Controller.Memory ctr.config.Path)
            "memory.limit_in_bytes" (FormatInt res.Memory)], none) := by
    simp [linuxMemHandler.Apply, hleg, hm, hs, hprobe, hread, hparse, hbranch, WriteFile,
      hw1, hw2, done]
  rw [happly]
  refine ⟨rfl, rfl, ?_, ?_, ?_⟩ <;> simp [writesTo]

/-- Witness for C28: current limit 0, memory 100 MiB, swap 200 MiB, with a
reservation, the OOM flag and a swappiness of 60 requested as well. -/
theorem mem_legacy_swap_first_frame_witness :
    linuxMemHandler.Apply (World.accepting "0\n" 0 []) sampleLegacy
        { Resources.zero with
          Memory := 104857600, MemorySwap := 209715200, MemoryReservation := 52428800,
          OomKillDisable := true, MemorySwappiness := some ⟨824633802904, 60⟩ }
      = ([Event.read (CgPath.legacy Controller.Memory "machine.slice/pod")
            "memory.limit_in_bytes",
          Event.write (CgPath.legacy Controller.Memory "machine.slice/pod")
            "memory.memsw.limit_in_bytes" (FormatInt 209715200),
          Event.write (CgPath.legacy Controller.Memory "machine.slice/pod")
            "memory.limit_in_bytes" (FormatInt 104857600)], none) :=
  (mem_legacy_swap_first_frame (World.accepting "0\n" 0 []) sampleLegacy
    { Resources.zero with
      Memory := 104857600, MemorySwap := 209715200, MemoryReservation := 52428800,
      OomKillDisable := true, MemorySwappiness := some ⟨824633802904, 60⟩ }
    "0\n" 0 rfl (by decide) (by decide) (by decide) rfl (by decide) (Or.inr (by decide))
    rfl rfl).1

/-! ## Translation of the resources into unit properties -/

/-- C21: `resourcesToProps` translates the resource specification exactly.
`uMap` holds `CPUQuotaPeriodUSec = CpuPeriod` iff `CpuPeriod ≠ 0`,
`CPUQuotaPerSecUSec = uint64(CpuQuota)` iff `CpuQuota ≠ 0` (that is
`CpuQuota` itself when it is not negative) and `BlockIOWeight = BlkioWeight`
iff `BlkioWeight > 0`; `bMap` holds `AllowedCPUs` and `AllowedMemoryNodes`
with the bytes of `CpusetCpus` and `CpusetMems` iff these are not empty;
`iMap` holds `MemoryMax = Memory` iff `Memory ≠ 0` and
`MemorySwapMax = MemorySwap` iff `MemorySwap ≠ 0`; `sMap` is empty; there
are no other keys, and for the all-zero specification the four maps are
empty. -/
theorem resourcesToProps_exact (res : Resources) :
    (resourcesToProps res).1
        = (if res.CpuPeriod ≠ 0 then [("CPUQuotaPeriodUSec", res.CpuPeriod)] else []) ++
          (if res.CpuQuota ≠ 0 then
            [("CPUQuotaPerSecUSec", (res.CpuQuota % 2 ^ 64).toNat)] else []) ++
          (if res.BlkioWeight > 0 then [("BlockIOWeight", res.BlkioWeight)] else []) ∧
    (resourcesToProps res).2.1 = [] ∧
    (resourcesToProps res).2.2.1
        = (if res.CpusetCpus ≠ "" then [("AllowedCPUs", bytesOf res.CpusetCpus)] else []) ++
          (if res.CpusetMems ≠ "" then
            [("AllowedMemoryNodes", bytesOf res.CpusetMems)] else []) ∧
    (resourcesToProps res).2.2.2
        = (if res.Memory ≠ 0 then [("MemoryMax", res.Memory)] else []) ++
          (if res.MemorySwap ≠ 0 then [("MemorySwapMax", res.MemorySwap)] else []) ∧
    (0 ≤ res.CpuQuota → res.CpuQuota < 2 ^ 63 →
      (((res.CpuQuota % 2 ^ 64).toNat : Nat) : Int) = res.CpuQuota) ∧
    resourcesToProps Resources.zero = ([], [], [], []) := by
  refine ⟨?_, rfl, ?_, ?_, ?_, by decide⟩
  · unfold resourcesToProps
    by_cases h1 : res.CpuPeriod ≠ 0 <;> by_cases h2 : res.CpuQuota ≠ 0 <;>
      by_cases h3 : res.BlkioWeight > 0 <;> simp [mapSet, h1, h2, h3]
  · unfold resourcesToProps
    by_cases h1 : res.CpusetCpus ≠ "" <;> by_cases h2 : res.CpusetMems ≠ "" <;>
      simp [mapSet, h1, h2]
  · unfold resourcesToProps
    by_cases h1 : res.Memory ≠ 0 <;> by_cases h2 : res.MemorySwap ≠ 0 <;>
      simp [mapSet, h1, h2]
  · intro h0 h1
    have hmod : res.CpuQuota % 2 ^ 64 = res.CpuQuota := Int.emod_eq_of_lt h0 (by omega)
    rw [hmod]
    exact Int.toNat_of_nonneg h0

/-- C29: for a negative `CpuQuota = q` (an `int64`, so at least `-2 ^ 63`)
`resourcesToProps` sets `CPUQuotaPerSecUSec` to the `uint64` wrap-around
value `2 ^ 64 + q`; the property is not omitted, and for `q = -1` it is
18446744073709551615. -/
theorem resourcesToProps_negative_quota (res : Resources) (hneg : res.CpuQuota < 0)
    (hint : -2 ^ 63 ≤ res.CpuQuota) :
    (resourcesToProps res).1.lookup "CPUQuotaPerSecUSec"
        = some (2 ^ 64 + res.CpuQuota).toNat ∧
    (res.CpuQuota = -1 →
      (resourcesToProps res).1.lookup "CPUQuotaPerSecUSec" = some 18446744073709551615) := by
  have hq : res.CpuQuota ≠ 0 := by omega
  have hmod : res.CpuQuota % 18446744073709551616 = 18446744073709551616 + res.CpuQuota := by
    omega
  have hmain : (resourcesToProps res).1.lookup "CPUQuotaPerSecUSec"
      = some (2 ^ 64 + res.CpuQuota).toNat := by
    unfold resourcesToProps
    by_cases h1 : res.CpuPeriod ≠ 0 <;> by_cases h3 : res.BlkioWeight > 0 <;>
      simp [mapSet, h1, hq, h3, hmod, List.lookup]
  refine ⟨hmain, ?_⟩
  intro h
  rw [hmain, h]
  rfl

/-- Witness for C29 at the unlimited sentinel -1. -/
theorem resourcesToProps_negative_quota_witness :
    (resourcesToProps { Resources.zero with CpuQuota := -1 }).1.lookup "CPUQuotaPerSecUSec"
      = some 18446744073709551615 :=
  (resourcesToProps_negative_quota { Resources.zero with CpuQuota := -1 }
    (by decide) (by decide)).2 rfl

/-! ## The unit submitted by the systemd backend -/

theorem takeWhile_append_stop {α : Type} (p : α → Bool) (x : α) (b : List α) (hx : p x = false) :
    ∀ a : List α, (∀ y ∈ a, p y = true) → (a ++ x :: b).takeWhile p = a
  | [], _ => by simp [List.takeWhile, hx]
  | y :: a, h => by
    have hy : p y = true := h y (List.mem_cons_self _ _)
    have ih := takeWhile_append_stop p x b hx a fun z hz => h z (List.mem_cons_of_mem _ hz)
    simp [List.takeWhile, hy, ih]

theorem dropWhile_append_stop {α : Type} (p : α → Bool) (x : α) (b : List α) (hx : p x = false) :
    ∀ a : List α, (∀ y ∈ a, p y = true) → (a ++ x :: b).dropWhile p = x :: b
  | [], _ => by simp [List.dropWhile, hx]
  | y :: a, h => by
    have hy : p y = true := h y (List.mem_cons_self _ _)
    have ih := dropWhile_append_stop p x b hx a fun z hz => h z (List.mem_cons_of_mem _ hz)
    simp [List.dropWhile, hy, ih]

theorem filepath_Split_join (slice name : String) (hname : '/' ∉ name.data) :
    filepath.Split (slice ++ "/" ++ name) = (slice ++ "/", name) := by
  have hdata : (slice ++ "/" ++ name).data = slice.data ++ '/' :: name.data := by
    simp [String.data_append]
  have hrev : (slice ++ "/" ++ name).data.reverse
      = name.data.reverse ++ '/' :: slice.data.reverse := by
    rw [hdata]
    simp
  have hall : ∀ y ∈ name.data.reverse, (fun ch : Char => decide (ch ≠ '/')) y = true := by
    intro y hy
    have hy2 : y ∈ name.data := List.mem_reverse.mp hy
    have : y ≠ '/' := fun h => hname (h ▸ hy2)
    simpa using this
  have hstop : (fun ch : Char => decide (ch ≠ '/')) '/' = false := by simp
  unfold filepath.Split
  rw [hrev,
    takeWhile_append_stop (fun ch : Char => decide (ch ≠ '/')) '/' slice.data.reverse hstop
      name.data.reverse hall,
    dropWhile_append_stop (fun ch : Char => decide (ch ≠ '/')) '/' slice.data.reverse hstop
      name.data.reverse hall]
  apply Prod.ext
  · apply String.ext
    simp [String.data_append]
  · apply String.ext
    simp

theorem TrimSuffix_slash (slice : String) : TrimSuffix (slice ++ "/") "/" = slice := by
  have hdata : (slice ++ "/").data = slice.data ++ ['/'] := by simp [String.data_append]
  have hsuf : List.isSuffixOf ("/" : String).data (slice ++ "/").data = true := by
    rw [hdata]
    simp [List.isSuffixOf]
  unfold TrimSuffix
  rw [if_pos hsuf]
  apply String.ext
  rw [hdata]
  simp

theorem systemdCreate_calls (c : Conn) (res : Resources) (path : String) :
    (systemdCreate c res path).1 = [systemdCall c res path 0] ∨
    (systemdCreate c res path).1 = [systemdCall c res path 0, systemdCall c res path 1] := by
  unfold systemdCreate
  cases h1 : c.StartTransientUnit [] (systemdCall c res path 0) with
  | none => left; simp [systemdCreateLoop, h1]
  | some e1 =>
    right
    cases h2 : c.StartTransientUnit [systemdCall c res path 0] (systemdCall c res path 1) with
    | none => simp [systemdCreateLoop, h1, h2]
    | some e2 => simp [systemdCreateLoop, h1, h2]

theorem systemdProperties_fixed (c : Conn) (res : Resources) (slice name : String) (i : Nat) :
    PropWants [slice] ∈ systemdProperties c res slice name i ∧
    (⟨"DefaultDependencies", .bool false⟩ : Property) ∈ systemdProperties c res slice name i ∧
    (⟨"MemoryAccounting", .bool true⟩ : Property) ∈ systemdProperties c res slice name i ∧
    (⟨"CPUAccounting", .bool true⟩ : Property) ∈ systemdProperties c res slice name i ∧
    (⟨"BlockIOAccounting", .bool true⟩ : Property) ∈ systemdProperties c res slice name i := by
  have hflag : ∀ p : Property,
      p ∈ ([⟨"DefaultDependencies", .bool false⟩, ⟨"MemoryAccounting", .bool true⟩,
        ⟨"CPUAccounting", .bool true⟩, ⟨"BlockIOAccounting", .bool true⟩] : List Property) →
      p ∈ systemdProperties c res slice name i := by
    intro p hp
    simp only [systemdProperties, List.mem_append]
    refine Or.inl (Or.inl (Or.inl (Or.inl (Or.inr ?_))))
    refine (c.rangeOrder_perm _ _).mem_iff.mpr ?_
    by_cases hi : i = 0
    · simp only [hi, if_true, mapSet]
      simp at hp ⊢
      rcases hp with h | h | h | h <;> simp [h]
    · simp only [hi, if_false]
      simpa using hp
  refine ⟨?_, hflag _ (by simp), hflag _ (by simp), hflag _ (by simp), hflag _ (by simp)⟩
  simp only [systemdProperties, List.mem_append]
  exact Or.inl (Or.inl (Or.inl (Or.inl (Or.inl (by simp)))))

/-- C22: for a cgroup path "slice/name" whose `name` is not empty and holds
no slash, `systemdCreate` issues at least one call, and every call it issues
carries the unit name `name`, the mode "replace", a `Wants` property for
`slice`, and the properties `DefaultDependencies=false`,
`MemoryAccounting=true`, `CPUAccounting=true` and `BlockIOAccounting=true`. -/
theorem systemd_create_unit (c : Conn) (res : Resources) (slice name : String)
    (hname : '/' ∉ name.data) (_hne : name ≠ "") :
    (systemdCreate c res (slice ++ "/" ++ name)).1 ≠ [] ∧
    ∀ call ∈ (systemdCreate c res (slice ++ "/" ++ name)).1,
      call.name = name ∧ call.mode = "replace" ∧
      PropWants [slice] ∈ call.properties ∧
      (⟨"DefaultDependencies", .bool false⟩ : Property) ∈ call.properties ∧
      (⟨"MemoryAccounting", .bool true⟩ : Property) ∈ call.properties ∧
      (⟨"CPUAccounting", .bool true⟩ : Property) ∈ call.properties ∧
      (⟨"BlockIOAccounting", .bool true⟩ : Property) ∈ call.properties := by
  have hsplit := filepath_Split_join slice name hname
  have hcall : ∀ i, systemdCall c res (slice ++ "/" ++ name) i
      = ⟨name, "replace", systemdProperties c res slice name i⟩ := by
    intro i
    simp [systemdCall, hsplit, TrimSuffix_slash]
  have hone : ∀ i, (systemdCall c res (slice ++ "/" ++ name) i).name = name ∧
      (systemdCall c res (slice ++ "/" ++ name) i).mode = "replace" ∧
      PropWants [slice] ∈ (systemdCall c res (slice ++ "/" ++ name) i).properties ∧
      (⟨"DefaultDependencies", .bool false⟩ : Property) ∈
        (systemdCall c res (slice ++ "/" ++ name) i).properties ∧
      (⟨"MemoryAccounting", .bool true⟩ : Property) ∈
        (systemdCall c res (slice ++ "/" ++ name) i).properties ∧
      (⟨"CPUAccounting", .bool true⟩ : Property) ∈
        (systemdCall c res (slice ++ "/" ++ name) i).properties ∧
      (⟨"BlockIOAccounting", .bool true⟩ : Property) ∈
        (systemdCall c res (slice ++ "/" ++ name) i).properties := by
    intro i
    rw [hcall i]
    exact ⟨rfl, rfl, systemdProperties_fixed c res slice name i⟩
  rcases systemdCreate_calls c res (slice ++ "/" ++ name) with h | h
  · rw [h]
    refine ⟨by simp, ?_⟩
    intro call hc
    rw [List.mem_singleton.mp hc]
    exact hone 0
  · rw [h]
    refine ⟨by simp, ?_⟩
    intro call hc
    rcases List.mem_cons.mp hc with rfl | hc
    · exact hone 0
    · rw [List.mem_singleton.mp hc]
      exact hone 1

/-- Witness for C22 at the path "machine.slice/pod", the first call being
rejected: calls are issued, and the first one names the unit "pod" and wants
"machine.slice". -/
theorem systemd_create_unit_witness :
    (systemdCreate (Conn.failing 1 13) Resources.zero ("machine.slice" ++ "/" ++ "pod")).1
        ≠ [] ∧
    (systemdCall (Conn.failing 1 13) Resources.zero ("machine.slice" ++ "/" ++ "pod") 0).name
        = "pod" ∧
    PropWants ["machine.slice"] ∈
      (systemdCall (Conn.failing 1 13) Resources.zero
        ("machine.slice" ++ "/" ++ "pod") 0).properties :=
  ⟨(systemd_create_unit (Conn.failing 1 13) Resources.zero "machine.slice" "pod"
      (by decide) (by decide)).1,
   ((systemd_create_unit (Conn.failing 1 13) Resources.zero "machine.slice" "pod"
      (by decide) (by decide)).2 _ (by decide)).1,
   ((systemd_create_unit (Conn.failing 1 13) Resources.zero "machine.slice" "pod"
      (by decide) (by decide)).2
      (systemdCall (Conn.failing 1 13) Resources.zero ("machine.slice" ++ "/" ++ "pod") 0)
      (by decide)).2.2.1⟩

/-! ## CPU-set writes on the two hierarchies -/

/-- C24: `linuxCpusetHandler.Apply` performs on the legacy and on the
unified hierarchy the writes the spec describes, in the same order, only the
directory differing: `cpuset.cpus` with `CpusetCpus` iff that is not empty,
then (the first write being accepted) `cpuset.mems` with `CpusetMems` iff
that is not empty; the two sequences of (file name, value) writes are equal,
no written value is empty, and on either hierarchy whatever is written is an
initial part of that sequence. -/
theorem cpuset_apply_same_writes (w : World) (ctrL ctrU : CgroupControl) (res : Resources)
    (hl : ctrL.cgroup2 = false) (hu : ctrU.cgroup2 = true)
    (hL : res.CpusetCpus = "" ∨
      w.write [] (CgPath.legacy Controller.CPUset ctrL.config.Path) "cpuset.cpus"
        res.CpusetCpus = none)
    (hU : res.CpusetCpus = "" ∨
      w.write [] (CgPath.unified ctrU.config.Path) "cpuset.cpus" res.CpusetCpus = none) :
    (linuxCpusetHandler.Apply w ctrL res).1
        = (cpusetWritesSpec res).map (fun kv =>
            Event.write (CgPath.legacy Controller.CPUset ctrL.config.Path) kv.1 kv.2) ∧
    (linuxCpusetHandler.Apply w ctrU res).1
        = (cpusetWritesSpec res).map (fun kv =>
            Event.write (CgPath.unified ctrU.config.Path) kv.1 kv.2) ∧
    writes (linuxCpusetHandler.Apply w ctrL res).1
        = writes (linuxCpusetHandler.Apply w ctrU res).1 ∧
    writes (linuxCpusetHandler.Apply w ctrU res).1 = cpusetWritesSpec res ∧
    (∀ kv ∈ cpusetWritesSpec res, kv.2 ≠ "") ∧
    (∀ ctr, writes (linuxCpusetHandler.Apply w ctr res).1 <+: cpusetWritesSpec res) := by
  have hleg : (linuxCpusetHandler.Apply w ctrL res).1
      = (cpusetWritesSpec res).map (fun kv =>
          Event.write (CgPath.legacy Controller.CPUset ctrL.config.Path) kv.1 kv.2) := by
    by_cases hc : res.CpusetCpus = "" <;> by_cases hm : res.CpusetMems = ""
    · simp [linuxCpusetHandler.Apply, hl, hc, hm, cpusetWritesSpec]
    · simp [linuxCpusetHandler.Apply, hl, hc, hm, cpusetWritesSpec]
    · rcases hL with h | h
      · exact absurd h hc
      · simp [linuxCpusetHandler.Apply, hl, hc, hm, cpusetWritesSpec, WriteFile, h]
    · rcases hL with h | h
      · exact absurd h hc
      · simp [linuxCpusetHandler.Apply, hl, hc, hm, cpusetWritesSpec, WriteFile, h]
  have huni : (linuxCpusetHandler.Apply w ctrU res).1
      = (cpusetWritesSpec res).map (fun kv =>
          Event.write (CgPath.unified ctrU.config.Path) kv.1 kv.2) := by
    by_cases hc : res.CpusetCpus = "" <;> by_cases hm : res.CpusetMems = ""
    · simp [linuxCpusetHandler.Apply, hu, hc, hm, cpusetWritesSpec]
    · simp [linuxCpusetHandler.Apply, hu, hc, hm, cpusetWritesSpec]
    · rcases hU with h | h
      · exact absurd h hc
      · simp [linuxCpusetHandler.Apply, hu, hc, hm, cpusetWritesSpec, WriteFile, h]
    · rcases hU with h | h
      · exact absurd h hc
      · simp [linuxCpusetHandler.Apply, hu, hc, hm, cpusetWritesSpec, WriteFile, h]
  have hwrites : ∀ (dir : CgPath) (l : List (String × String)),
      writes (l.map fun kv => Event.write dir kv.1 kv.2) = l := by
    intro dir l
    induction l with
    | nil => rfl
    | cons kv l ih => simp [writes, ih]
  refine ⟨hleg, huni, ?_, ?_, ?_, ?_⟩
  · rw [hleg, huni, hwrites, hwrites]
  · rw [huni, hwrites]
  · intro kv hkv
    unfold cpusetWritesSpec at hkv
    by_cases hc : res.CpusetCpus = "" <;> by_cases hm : res.CpusetMems = "" <;>
      simp [hc, hm] at hkv
    · rw [hkv]; exact hm
    · rw [hkv]; exact hc
    · rcases hkv with h | h <;> rw [h]
      · exact hc
      · exact hm
  · intro ctr
    cases hv : ctr.cgroup2
    · cases hw : w.write [] (CgPath.legacy Controller.CPUset ctr.config.Path)
          "cpuset.cpus" res.CpusetCpus <;>
        by_cases hc : res.CpusetCpus = "" <;> by_cases hm : res.CpusetMems = "" <;>
        simp [linuxCpusetHandler.Apply, hv, hc, hm, cpusetWritesSpec, WriteFile, writes, hw]
    · cases hw : w.write [] (CgPath.unified ctr.config.Path)
          "cpuset.cpus" res.CpusetCpus <;>
        by_cases hc : res.CpusetCpus = "" <;> by_cases hm : res.CpusetMems = "" <;>
        simp [linuxCpusetHandler.Apply, hv, hc, hm, cpusetWritesSpec, WriteFile, writes, hw]

/-- Witness for C24: both lists requested, every write accepted. -/
theorem cpuset_apply_same_writes_witness :
    writes (linuxCpusetHandler.Apply (World.accepting "0" 0 []) sampleLegacy
        { Resources.zero with CpusetCpus := "0-3", CpusetMems := "0" }).1
      = writes (linuxCpusetHandler.Apply (World.accepting "0" 0 []) sampleUnified
        { Resources.zero with CpusetCpus := "0-3", CpusetMems := "0" }).1 :=
  (cpuset_apply_same_writes (World.accepting "0" 0 []) sampleLegacy sampleUnified
    { Resources.zero with CpusetCpus := "0-3", CpusetMems := "0" } rfl rfl
    (Or.inr rfl) (Or.inr rfl)).2.2.1

/-! ## Validation of the pod statistics options -/

/-- C25: `ValidatePodStatsOptions` returns an error iff at least two of the
three selectors (a non-empty `args`, `options.All`, `options.Latest`) are
given, and then leaves the options as they are; when none is given it sets
`options.All` and returns `nil`; when exactly one is given it returns `nil`
and leaves the options unchanged. -/
theorem validate_pod_stats_options (args : List String) (options : PodStatsOptions) :
    ((ValidatePodStatsOptions args options).2 ≠ none ↔
      (args ≠ [] ∧ options.All = true) ∨ (args ≠ [] ∧ options.Latest = true) ∨
        (options.All = true ∧ options.Latest = true)) ∧
    ((ValidatePodStatsOptions args options).2 ≠ none →
      (ValidatePodStatsOptions args options).1 = options) ∧
    (args = [] → options.All = false → options.Latest = false →
      ValidatePodStatsOptions args options = ({ options with All := true }, none)) ∧
    ((args ≠ [] ∧ options.All = false ∧ options.Latest = false) ∨
      (args = [] ∧ options.All = true ∧ options.Latest = false) ∨
      (args = [] ∧ options.All = false ∧ options.Latest = true) →
      ValidatePodStatsOptions args options = (options, none)) := by
  rcases options with ⟨all, latest⟩
  cases args <;> cases all <;> cases latest <;> simp [ValidatePodStatsOptions]

/-! ## Filters without a value -/

/-- C30: on the filter list "label=app", "dangling" `ToURLValues` does not
return: the second entry holds no "=", `strings.SplitN` gives a slice of
length 1, and `t[1]` is an index out of range. -/
theorem to_url_values_panics_without_equals :
    SplitN "dangling" '=' 2 = ["dangling"] ∧
    ToURLValues ["label=app", "dangling"] = none := by
  decide

/-- On entries that hold "=" `ToURLValues` splits at the first one and adds
the value under the key, in list order. -/
theorem to_url_values_well_formed :
    ToURLValues ["a=1", "b=2", "a=3=4"] = some [("a", ["1", "3=4"]), ("b", ["2"])] := by
  decide

end Cgroups
